import Mathlib

/-!
# Santa-Scramble: verification of the simulation engine

Shallow embedding of the real-time simulation core of `src/game/GameEngine.ts`
(data model from `src/unnamed/part_000` = `types.ts`).

Modelling conventions:
* JavaScript numbers are modelled as exact rationals (`ℚ`): every arithmetic
  operation appearing in the engine (addition, multiplication by constants,
  comparison, `Math.sign`, `Math.abs`, `Math.floor`) is exact on the values the
  engine produces, so no floating-point rounding is modelled.
* `Math.random()` is modelled as an explicit stream `rng : ℕ → ℚ` together with
  a cursor index that advances on each draw; theorems assume every drawn value
  lies in `[0, 1)`, which is the `Math.random` contract.
* The `[...xs].sort(() => Math.random() - 0.5)` shuffle of the reachable floor
  levels consumes an unspecified number of random draws inside the comparator
  and returns an implementation-defined reordering; it is modelled by an
  oracle function `shuffle`, with theorems assuming its output is a
  permutation of its input.  Stream indices are renumbered accordingly.
* Render-only state (THREE.js meshes, textures, particle bursts, snow, the
  blinking tree lights, `syncMesh`, and the `scale`/material writes) is
  excluded, as are the entity fields `patrolStart` and `state`, which the
  engine writes but never reads.
* The HUD callbacks `onScore` / `onLives` / `onGameOver` are modelled as an
  append-only event log inside the game state.
-/

namespace SantaScramble

/-! ## Constants (`src/constants.ts` is not part of the provided sources)

`TILE_SIZE = 16` is pinned by the engine source itself: the light-placement
code in `GameEngine.ts` documents "Plane is TILE_SIZE x TILE_SIZE (16x16)",
and the sprite rasteriser draws 16x16 sprites.  The world is the 25x15 tile
template (`App.tsx` uses a 25/15 aspect box).

Modelled from the spec: the numeric values of `GRAVITY`, `JUMP_FORCE`,
`MOVE_SPEED`, `CLIMB_SPEED` and `ENEMY_SPEED` live in the missing
`src/constants.ts`; the spec treats them as fixed positive constants and
never relies on their magnitudes, so representative positive model values
are used here.  No theorem below depends on the particular choices. -/

def TILE_SIZE : ℚ := 16
def WORLD_WIDTH : ℚ := 25
def WORLD_HEIGHT : ℚ := 15
def GRAVITY : ℚ := 800
def JUMP_FORCE : ℚ := 350
def MOVE_SPEED : ℚ := 150
def CLIMB_SPEED : ℚ := 100
def ENEMY_SPEED : ℚ := 40

def worldW : ℚ := WORLD_WIDTH * TILE_SIZE

def worldH : ℚ := WORLD_HEIGHT * TILE_SIZE

/-- JavaScript `Math.sign` on the (finite) numbers the engine produces. -/
def jsSign (q : ℚ) : ℚ := if 0 < q then 1 else if q < 0 then -1 else 0

/-- JavaScript `Math.floor`. -/
def jsFloor (q : ℚ) : ℤ := Int.floor q

/-! ## Data model (`types.ts`, `GameEngine.ts`) -/

/-- `EntityType` from `types.ts`. -/
inductive EntityType where
  | PLAYER
  | ENEMY_REINDEER
  | ENEMY_SNOWMAN
  | GIFT
  | OBSTACLE
  | LADDER
  | DECORATION
deriving DecidableEq

/-- `Rect` from `types.ts`. -/
@[ext] structure Rect where
  x : ℚ
  y : ℚ
  w : ℚ
  h : ℚ
deriving DecidableEq

/-- The `velocity: {x, y}` record of an entity. -/
@[ext] structure Velocity where
  x : ℚ
  y : ℚ
deriving DecidableEq

/-- The simulation-relevant fields of the `Entity` interface in
`GameEngine.ts`; `mesh`/`lights` are render handles and `patrolStart`/`state`
are written but never read, so they are not modelled. -/
@[ext] structure Entity where
  id : ℕ
  type : EntityType
  rect : Rect
  velocity : Velocity
  grounded : Bool
  onLadder : Bool
  direction : ℚ
  animFrame : ℕ
  animTimer : ℚ
  tex : String
deriving DecidableEq

/-- One HUD callback invocation (`onScore` / `onLives` / `onGameOver`). -/
inductive Event where
  | score (s : ℤ)
  | lives (l : ℤ)
  | gameOver
deriving DecidableEq

/-- The polled input snapshot (`InputManager.getAxis` / `isJumpPressed`). -/
structure Input where
  ax : ℚ
  ay : ℚ
  jump : Bool

/-! ## Geometry / collision utility -/

/-- `GameEngine.checkCollision`: strict AABB overlap. -/
def checkCollision (r1 r2 : Rect) : Bool :=
  decide (r1.x < r2.x + r2.w) && decide (r1.x + r1.w > r2.x) &&
  decide (r1.y < r2.y + r2.h) && decide (r1.y + r1.h > r2.y)

/-- `GameEngine.checkOverlap`: first target rectangle strictly containing the
center of `r1`, if any. -/
def checkOverlap (r1 : Rect) : List Rect → Option Rect
  | [] => none
  | t :: ts =>
      if r1.x + r1.w / 2 > t.x ∧ r1.x + r1.w / 2 < t.x + t.w ∧
         r1.y + r1.h / 2 > t.y ∧ r1.y + r1.h / 2 < t.y + t.h then some t
      else checkOverlap r1 ts

/-! ## Physics & movement resolver -/

/-- The `'x' | 'y'` axis tag of `handleCollisions`. -/
inductive Axis where
  | x
  | y
deriving DecidableEq

/-- The body of the `for (const solid of this.solids)` loop in
`GameEngine.handleCollisions`, resolving one entity against one solid. -/
def collideStep (axis : Axis) (e : Entity) (s : Rect) : Entity :=
  if checkCollision e.rect s then
    match axis with
    | .x =>
        let e1 :=
          if e.velocity.x > 0 then { e with rect := { e.rect with x := s.x - e.rect.w } }
          else if e.velocity.x < 0 then { e with rect := { e.rect with x := s.x + s.w } }
          else e
        { e1 with velocity := { e1.velocity with x := 0 } }
    | .y =>
        if e.velocity.y > 0 then
          { e with rect := { e.rect with y := s.y - e.rect.h },
                   velocity := { e.velocity with y := 0 } }
        else if e.velocity.y < 0 then
          { e with rect := { e.rect with y := s.y + s.h },
                   velocity := { e.velocity with y := 0 }, grounded := true }
        else e
  else e

/-- `GameEngine.handleCollisions`: resolve against every solid in order. -/
def handleCollisions (e : Entity) (axis : Axis) (solids : List Rect) : Entity :=
  solids.foldl (collideStep axis) e

/-- `GameEngine.moveEntity` (the `syncMesh` call is render-only). -/
def moveEntity (e : Entity) (dt : ℚ) (solids : List Rect) : Entity :=
  let e1 := { e with rect := { e.rect with x := e.rect.x + e.velocity.x * dt } }
  let e2 := handleCollisions e1 .x solids
  let e3 := { e2 with rect := { e2.rect with y := e2.rect.y + e2.velocity.y * dt } }
  let e4 := { e3 with grounded := false }
  handleCollisions e4 .y solids

/-- `GameEngine.constrainToWorld` for a non-player entity (the
`entity === this.player` branch is handled at the state level below). -/
def constrainEntity (e : Entity) : Entity :=
  let e1 :=
    if e.rect.x < 0 then
      { e with rect := { e.rect with x := 0 }, velocity := { e.velocity with x := 0 } }
    else e
  let e2 :=
    if e1.rect.x + e1.rect.w > worldW then
      { e1 with rect := { e1.rect with x := worldW - e1.rect.w },
                velocity := { e1.velocity with x := 0 } }
    else e1
  if e2.rect.y < 0 ∧ e2.type ≠ EntityType.GIFT then
    { e2 with rect := { e2.rect with y := worldH } }
  else e2

/-- The x-clamping prefix of `constrainToWorld`, shared by the player and
non-player paths. -/
def clampX (e : Entity) : Entity :=
  let e1 :=
    if e.rect.x < 0 then
      { e with rect := { e.rect with x := 0 }, velocity := { e.velocity with x := 0 } }
    else e
  if e1.rect.x + e1.rect.w > worldW then
    { e1 with rect := { e1.rect with x := worldW - e1.rect.w },
              velocity := { e1.velocity with x := 0 } }
  else e1

/-! ## Game state -/

/-- The simulation-relevant mutable fields of the `GameEngine` class.
`player` is a reference into `entities` in the source; here it is the id
`playerId`, and player reads/writes go through `getPlayer`/`setPlayer`.
`rngIdx` is the cursor into the `Math.random` stream. -/
structure GameState where
  entities : List Entity
  solids : List Rect
  ladders : List Rect
  playerId : ℕ
  idCounter : ℕ
  rngIdx : ℕ
  score : ℤ
  lives : ℤ
  isRunning : Bool
  events : List Event

/-- A throwaway entity used as the default of total lookups; every theorem
that reads the player assumes the player is present, so it never surfaces. -/
def dummyEntity : Entity :=
  { id := 0, type := .PLAYER, rect := ⟨0, 0, 0, 0⟩, velocity := ⟨0, 0⟩,
    grounded := false, onLadder := false, direction := 1,
    animFrame := 0, animTimer := 0, tex := "" }

/-- Read `this.player` (the entity whose id is `playerId`). -/
def getPlayer (s : GameState) : Entity :=
  (s.entities.find? (fun e => e.id == s.playerId)).getD dummyEntity

/-- Mutate `this.player` in place: in JS the player object is aliased inside
`this.entities`, so a write through `this.player` is a write to that list
element. -/
def setPlayer (s : GameState) (f : Entity → Entity) : GameState :=
  { s with entities := s.entities.map (fun e => if e.id = s.playerId then f e else e) }

/-- `GameEngine.handlePlayerHit`. -/
def handlePlayerHit (s : GameState) : GameState :=
  let l := s.lives - 1
  let s1 := { s with lives := l, events := s.events ++ [Event.lives l] }
  if l ≤ 0 then
    { s1 with isRunning := false, events := s1.events ++ [Event.gameOver] }
  else
    setPlayer s1 (fun p =>
      { p with rect := { p.rect with x := TILE_SIZE * 12, y := TILE_SIZE * 7 },
               velocity := ⟨0, 0⟩ })

/-- `GameEngine.constrainToWorld` applied to the player: x-clamps, then the
`y < 0` branch triggers `handlePlayerHit` (no teleport for the player). -/
def constrainPlayer (s : GameState) : GameState :=
  let s1 := setPlayer s clampX
  if (getPlayer s1).rect.y < 0 then handlePlayerHit s1 else s1

/-! ## Behavior controller -/

/-- Lines 430-458 of `GameEngine.update`: the per-frame player control
update (ladder climb / walk + gravity + jump, then the facing update),
as a pure function of the player entity. -/
def playerControlE (ladders : List Rect) (inp : Input) (dt : ℚ) (p : Entity) : Entity :=
  let lad := checkOverlap p.rect ladders
  let p1 := { p with onLadder := lad.isSome }
  let p2 :=
    match lad with
    | some t =>
        let q := { p1 with velocity := ⟨inp.ax * MOVE_SPEED * (4/5), inp.ay * CLIMB_SPEED⟩,
                           grounded := true }
        if inp.ay ≠ 0 then
          let ladderCenter := t.x + t.w / 2
          let playerCenter := q.rect.x + q.rect.w / 2
          if |ladderCenter - playerCenter| < 4 then
            { q with rect := { q.rect with x := q.rect.x + (ladderCenter - playerCenter) * 10 * dt } }
          else q
        else q
    | none =>
        let q := { p1 with velocity := ⟨inp.ax * MOVE_SPEED, p1.velocity.y - GRAVITY * dt⟩ }
        if inp.jump ∧ q.grounded then
          { q with velocity := { q.velocity with y := JUMP_FORCE }, grounded := false }
        else q
  if inp.ax ≠ 0 then { p2 with direction := jsSign inp.ax } else p2

/-- `GameEngine.updatePlayerAnimation`, minus the texture-key/mesh writes. -/
def updatePlayerAnim (dt : ℚ) (p : Entity) : Entity :=
  let isMovingX := |p.velocity.x| > 10
  let isMovingY := |p.velocity.y| > 10
  if p.onLadder then
    if isMovingY then
      let t := p.animTimer + dt
      if t > 1/10 then { p with animTimer := 0, animFrame := (p.animFrame + 1) % 2 }
      else { p with animTimer := t }
    else p
  else if ¬ p.grounded then p
  else if isMovingX then
    let t := p.animTimer + dt
    if t > 12/100 then { p with animTimer := 0, animFrame := (p.animFrame + 1) % 2 }
    else { p with animTimer := t }
  else { p with animFrame := 0, animTimer := 0 }

/-- The reindeer-only walk-animation bookkeeping of the enemy loop (the
texture swap itself is render-only). -/
def reindeerAnim (dt : ℚ) (e : Entity) : Entity :=
  if e.type = EntityType.ENEMY_REINDEER then
    if e.animTimer + dt > 15/100 then
      { e with animTimer := 0, animFrame := (e.animFrame + 1) % 2 }
    else { e with animTimer := e.animTimer + dt }
  else e

/-- The wall-reversal rule: a resolved horizontal velocity of exactly zero
flips the facing direction. -/
def wallReversal (e : Entity) : Entity :=
  if e.velocity.x = 0 then { e with direction := e.direction * (-1) } else e

/-- The enemy part of the entity loop in `GameEngine.update` (lines 516-549):
chase/patrol velocity, gravity, movement, world constraint, reindeer
animation, and wall reversal — a pure function of the enemy entity, the
player rectangle at that moment, and the solids. -/
def updateEnemyMotion (pRect : Rect) (dt : ℚ) (solids : List Rect) (e : Entity) : Entity :=
  let distY := |e.rect.y - pRect.y|
  let distX := pRect.x - e.rect.x
  let e1 :=
    if distY < TILE_SIZE ∧ |distX| < TILE_SIZE * 8 then
      { e with direction := jsSign distX,
               velocity := { e.velocity with x := jsSign distX * ENEMY_SPEED * (6/5) } }
    else
      { e with velocity := { e.velocity with x := e.direction * ENEMY_SPEED } }
  let e2 := { e1 with velocity := { e1.velocity with y := e1.velocity.y - GRAVITY * dt } }
  let e3 := moveEntity e2 dt solids
  let e4 := constrainEntity e3
  wallReversal (reindeerAnim dt e4)

/-! ## Interaction & scoring -/

/-- The live-gift count (`this.entities.filter(e => e.type === GIFT).length`). -/
def countGifts (l : List Entity) : ℕ :=
  (l.filter (fun e => e.type == EntityType.GIFT)).length

/-- The body of the `for (const entity of this.entities)` loop in
`GameEngine.update`: skip the player; gift pickup (score, callback, removal —
the particle burst is render-only); enemy update plus contact damage.
The loop iterates the array captured at loop entry while `removeEntity`
rebinds `this.entities`, so the fold below runs over a snapshot while
threading the live state. -/
def processEntity (dt : ℚ) (s : GameState) (e : Entity) : GameState :=
  if e.id = s.playerId then s
  else if e.type = EntityType.GIFT then
    if checkCollision (getPlayer s).rect e.rect then
      { s with score := s.score + 100,
               events := s.events ++ [Event.score (s.score + 100)],
               entities := s.entities.filter (fun x => !(x.id == e.id)) }
    else s
  else if e.type = EntityType.ENEMY_REINDEER ∨ e.type = EntityType.ENEMY_SNOWMAN then
    let e' := updateEnemyMotion (getPlayer s).rect dt s.solids e
    let s1 := { s with entities := s.entities.map (fun x => if x.id = e.id then e' else x) }
    if checkCollision (getPlayer s1).rect e'.rect then handlePlayerHit s1 else s1
  else s

/-! ## Level generator (`GameEngine.initLevel`) -/

/-- The fixed ASCII map template, rows exactly as written in the source. -/
def mapTemplateRaw : List String :=
  [ "                         ",
    "  R  H          R  H     ",
    "#####H#####   #####H#####",
    "     H             H     ",
    "     H      H      H     ",
    "#####H######H######H#####",
    "     H      H      H     ",
    "     H   @  H      H  S  ",
    " ####H######H######H#### ",
    "     H      H      H     ",
    "     H      H   S  H     ",
    "#####H######H######H#####",
    "     H             H     ",
    "  R  H             H  R  ",
    " ####################### " ]

/-- The template after the source's `.reverse()`: row `y = 0` is the ground. -/
def mapTemplate : List (List Char) :=
  (mapTemplateRaw.map String.data).reverse

def tRow (y : ℕ) : List Char := mapTemplate.getD y []

def tChar (y x : ℕ) : Char := (tRow y).getD x ' '

/-- The solid rectangles emitted for every `#` cell (first scan). -/
def scanSolids : List Rect :=
  (List.range mapTemplate.length).flatMap (fun y =>
    (List.range (tRow y).length).filterMap (fun x =>
      if tChar y x = '#' then
        some ⟨(x : ℚ) * TILE_SIZE, (y : ℚ) * TILE_SIZE, TILE_SIZE, TILE_SIZE⟩
      else none))

/-- The ladder zones emitted for every `H` cell (first scan). -/
def scanLadders : List Rect :=
  (List.range mapTemplate.length).flatMap (fun y =>
    (List.range (tRow y).length).filterMap (fun x =>
      if tChar y x = 'H' then
        some ⟨(x : ℚ) * TILE_SIZE + 4, (y : ℚ) * TILE_SIZE, 8, TILE_SIZE⟩
      else none))

/-- `GameEngine.createEntity`: fresh id from `++entityIdCounter`, tile-sized
rectangle, with the narrower inset hitbox for the player and enemies.
Returns the entity and the advanced counter. -/
def createEntity (c : ℕ) (x y : ℚ) (t : EntityType) (tex : String) : Entity × ℕ :=
  let e : Entity :=
    { id := c + 1, type := t, rect := ⟨x, y, TILE_SIZE, TILE_SIZE⟩, velocity := ⟨0, 0⟩,
      grounded := false, onLadder := false, direction := 1,
      animFrame := 0, animTimer := 0, tex := tex }
  let e1 :=
    if t = EntityType.PLAYER ∨ t = EntityType.ENEMY_REINDEER ∨ t = EntityType.ENEMY_SNOWMAN
    then { e with rect := { e.rect with w := 12, x := e.rect.x + 2 } }
    else e
  (e1, c + 1)

/-- All `(y, x)` cell indices in scan order. -/
def cellIndices : List (ℕ × ℕ) :=
  (List.range mapTemplate.length).flatMap (fun y =>
    (List.range (tRow y).length).map (fun x => (y, x)))

/-- One cell of the second scan: spawn the player at `@`, a reindeer at `R`,
a snowman at `S`.  Accumulator: entities so far, the player's id, the
id counter. -/
def spawnStep (acc : List Entity × ℕ × ℕ) (yx : ℕ × ℕ) : List Entity × ℕ × ℕ :=
  let px : ℚ := (yx.2 : ℚ) * TILE_SIZE
  let py : ℚ := (yx.1 : ℚ) * TILE_SIZE
  let ch := tChar yx.1 yx.2
  if ch = '@' then
    let ec := createEntity acc.2.2 px py EntityType.PLAYER "santa_idle"
    (acc.1 ++ [ec.1], ec.1.id, ec.2)
  else if ch = 'R' then
    let ec := createEntity acc.2.2 px py EntityType.ENEMY_REINDEER "reindeer_0"
    (acc.1 ++ [ec.1], acc.2.1, ec.2)
  else if ch = 'S' then
    let ec := createEntity acc.2.2 px py EntityType.ENEMY_SNOWMAN "snowman"
    (acc.1 ++ [ec.1], acc.2.1, ec.2)
  else acc

/-- The second scan of `initLevel` (player and enemy spawns). -/
def scanSpawns (c0 : ℕ) : List Entity × ℕ × ℕ :=
  cellIndices.foldl spawnStep ([], 0, c0)

/-- A floor level: a row index and its standing spots. -/
structure FloorLevel where
  y : ℕ
  spots : List ℕ
deriving DecidableEq

/-- `allFloorLevels`: for every row `y ≥ 1`, the columns that are empty with
a solid directly below; rows with no such spot are dropped. -/
def allFloorLevels : List FloorLevel :=
  (List.range' 1 (mapTemplate.length - 1)).filterMap (fun y =>
    let spots := (List.range (tRow y).length).filter
      (fun x => (tChar y x == ' ') && (tChar (y - 1) x == '#'))
    if spots.length > 0 then some ⟨y, spots⟩ else none)

/-- The reachability heuristic: with more than one floor level, drop the
levels whose `y` equals the maximum (`Math.max` over a nonempty list of
naturals is the fold of `max` from `0`). -/
def reachableFloorLevels : List FloorLevel :=
  if 1 < allFloorLevels.length then
    let maxY := (allFloorLevels.map FloorLevel.y).foldl max 0
    allFloorLevels.filter (fun fl => decide (fl.y < maxY))
  else allFloorLevels

def giftVariants : List String :=
  ["gift_red", "gift_green", "gift_orange", "gift_blue", "gift_purple",
   "gift_yellow", "gift_teal"]

/-- State threaded through the two gift-placement passes. -/
structure GenSt where
  ents : List Entity
  occupied : List (ℕ × ℕ)
  placed : ℕ
  c : ℕ
  k : ℕ

/-- One shuffled floor level of the first placement pass: while the target
is not reached, place one gift on a random standing spot of this level. -/
def giftStepP1 (rng : ℕ → ℚ) (target : ℕ) (st : GenSt) (level : FloorLevel) : GenSt :=
  if st.placed < target then
    let ix := (jsFloor (rng st.k * level.spots.length)).toNat
    let rx := level.spots.getD ix 0
    let gix := (jsFloor (rng (st.k + 1) * giftVariants.length)).toNat
    let key := giftVariants.getD gix "gift_red"
    let ec := createEntity st.c ((rx : ℚ) * TILE_SIZE) ((level.y : ℚ) * TILE_SIZE)
      EntityType.GIFT key
    { ents := st.ents ++ [ec.1], occupied := st.occupied ++ [(rx, level.y)],
      placed := st.placed + 1, c := ec.2, k := st.k + 2 }
  else st

/-- First placement pass: at most one gift per (shuffled) reachable floor. -/
def pass1 (rng : ℕ → ℚ) (target : ℕ) (levels : List FloorLevel) (st : GenSt) : GenSt :=
  levels.foldl (giftStepP1 rng target) st

/-- `extraCandidateSpots`: every still-unoccupied standing spot of every
reachable floor, flattened in level order. -/
def extraCands (occupied : List (ℕ × ℕ)) : List (ℕ × ℕ) :=
  reachableFloorLevels.flatMap (fun fl =>
    (fl.spots.filter (fun x => decide ((x, fl.y) ∉ occupied))).map (fun x => (x, fl.y)))

/-- One draw of the second placement pass: pick a uniformly random candidate
spot, `splice` it out, and place a gift there. -/
def giftStepP2 (rng : ℕ → ℚ) (cands : List (ℕ × ℕ)) (st : GenSt) : GenSt × List (ℕ × ℕ) :=
  let ix := (jsFloor (rng st.k * cands.length)).toNat
  let spot := cands.getD ix (0, 0)
  let cands' := cands.eraseIdx ix
  let gix := (jsFloor (rng (st.k + 1) * giftVariants.length)).toNat
  let key := giftVariants.getD gix "gift_red"
  let ec := createEntity st.c ((spot.1 : ℚ) * TILE_SIZE) ((spot.2 : ℚ) * TILE_SIZE)
    EntityType.GIFT key
  ({ ents := st.ents ++ [ec.1], occupied := st.occupied ++ [(spot.1, spot.2)],
     placed := st.placed + 1, c := ec.2, k := st.k + 2 }, cands')

/-- Second placement pass: `remaining` more draws, each removing a uniformly
chosen candidate (`splice`), stopping early when candidates run out. -/
def pass2 (rng : ℕ → ℚ) : ℕ → List (ℕ × ℕ) → GenSt → GenSt
  | 0, _, st => st
  | n + 1, cands, st =>
      if cands.length > 0 then
        pass2 rng n (giftStepP2 rng cands st).2 (giftStepP2 rng cands st).1
      else st

/-- Swap two positions of a list (the destructuring swap in the source). -/
def listSwap (l : List ℕ) (i j : ℕ) : List ℕ :=
  let a := l.getD i 0
  let b := l.getD j 0
  (l.set i b).set j a

/-- The Fisher-Yates loop `for (let i = len-1; i > 0; i--)` over the
available tree columns; returns the shuffled list and the advanced rng
cursor. -/
def fyAux (rng : ℕ → ℚ) : ℕ → List ℕ → ℕ → List ℕ × ℕ
  | 0, l, k => (l, k)
  | i + 1, l, k =>
      let j := (jsFloor (rng k * ((i + 1) + 1 : ℕ))).toNat
      fyAux rng i (listSwap l (i + 1) j) (k + 1)

/-- State threaded through one floor's tree placement. -/
structure TreeSt where
  ents : List Entity
  cnt : ℕ
  c : ℕ
  k : ℕ

/-- One candidate column of the tree pass: below the per-floor cap of 4,
draw; with probability `0.25` place a tree of a random variant. -/
def treeStep (rng : ℕ → ℚ) (y : ℕ) (st : TreeSt) (x : ℕ) : TreeSt :=
  if st.cnt < 4 then
    if rng st.k < 1/4 then
      let v := (jsFloor (rng (st.k + 1) * 2)).toNat
      let ec := createEntity st.c ((x : ℚ) * TILE_SIZE) ((y : ℚ) * TILE_SIZE)
        EntityType.DECORATION ("tree_" ++ toString v)
      { ents := st.ents ++ [ec.1], cnt := st.cnt + 1, c := ec.2, k := st.k + 2 }
    else { st with k := st.k + 1 }
  else st

/-- Tree placement for one floor row `y`: collect free standing columns,
Fisher-Yates shuffle them, then place trees capped at 4 per floor. -/
def treeFloor (rng : ℕ → ℚ) (occupied : List (ℕ × ℕ)) (acc : List Entity × ℕ × ℕ)
    (y : ℕ) : List Entity × ℕ × ℕ :=
  let availableX := (List.range (tRow y).length).filter (fun x =>
    (tChar y x == ' ') && (tChar (y - 1) x == '#') &&
    !(occupied.contains (x, y)) &&
    !(tChar y x == '@' || tChar y x == 'R' || tChar y x == 'S'))
  let fy := fyAux rng (availableX.length - 1) availableX acc.2.2
  let st := fy.1.foldl (treeStep rng y) { ents := acc.1, cnt := 0, c := acc.2.1, k := fy.2 }
  (st.ents, st.c, st.k)

/-- The output of one run of `initLevel`. -/
structure LevelOut where
  entities : List Entity
  playerId : ℕ
  c : ℕ
  k : ℕ

/-- `GameEngine.initLevel`, given the random stream, the shuffle oracle for
the floor-level sort, the current entity-id counter, and the rng cursor.
The stream cursor is renumbered across the oracle shuffle (see the header
comment); solids and ladders are the fixed `scanSolids` / `scanLadders`. -/
def initLevel (rng : ℕ → ℚ) (shuffle : List FloorLevel → List FloorLevel)
    (c0 k0 : ℕ) : LevelOut :=
  let sp := scanSpawns c0
  let target := (jsFloor (rng k0 * 3)).toNat + 4
  let st0 : GenSt := { ents := [], occupied := [], placed := 0, c := sp.2.2, k := k0 + 1 }
  let st1 := pass1 rng target (shuffle reachableFloorLevels) st0
  let st2 := pass2 rng (target - st1.placed) (extraCands st1.occupied) st1
  let tr := (List.range' 1 (mapTemplate.length - 1)).foldl
    (treeFloor rng st2.occupied) (sp.1 ++ st2.ents, st2.c, st2.k)
  { entities := tr.1, playerId := sp.2.1, c := tr.2.1, k := tr.2.2 }

/-- `initLevel` as a state transformer (entities, static geometry, player
reference, counters are replaced; score, lives, the clock and the event log
are untouched). -/
def initLevelState (rng : ℕ → ℚ) (shuffle : List FloorLevel → List FloorLevel)
    (s : GameState) : GameState :=
  let out := initLevel rng shuffle s.idCounter s.rngIdx
  { s with entities := out.entities, solids := scanSolids, ladders := scanLadders,
           playerId := out.playerId, idCounter := out.c, rngIdx := out.k }

/-! ## The frame update (`GameEngine.update`) -/

/-- The player part of a frame (`update` lines 430-462): control mapping,
movement, animation bookkeeping, then the world constraint (which can
trigger a player hit).  The `if (!this.player) return` guard never fires
after construction — `initLevel` always spawns the player — so it is not
modelled. -/
def prePhase (inp : Input) (dt : ℚ) (s : GameState) : GameState :=
  let s1 := setPlayer s (playerControlE s.ladders inp dt)
  let s2 := setPlayer s1 (fun p => moveEntity p dt s1.solids)
  let s3 := setPlayer s2 (updatePlayerAnim dt)
  constrainPlayer s3

/-- The entity loop of `update`: a fold of `processEntity` over the snapshot
of `this.entities` taken at loop entry. -/
def entityPhase (dt : ℚ) (s : GameState) : GameState :=
  s.entities.foldl (processEntity dt) s

/-- The level-clear check at the end of `update`: no gifts left while some
entity still exists awards 1000 points and regenerates the level. -/
def clearPhase (rng : ℕ → ℚ) (shuffle : List FloorLevel → List FloorLevel)
    (s : GameState) : GameState :=
  if countGifts s.entities = 0 ∧ 0 < s.entities.length then
    initLevelState rng shuffle
      { s with score := s.score + 1000,
               events := s.events ++ [Event.score (s.score + 1000)] }
  else s

/-- `GameEngine.update` (snow and particle updates are render-only). -/
def update (rng : ℕ → ℚ) (shuffle : List FloorLevel → List FloorLevel)
    (inp : Input) (dt : ℚ) (s : GameState) : GameState :=
  clearPhase rng shuffle (entityPhase dt (prePhase inp dt s))

/-- `GameEngine.loop`: a frame only simulates while `isRunning`; `dt` is the
clamped elapsed time computed by the driver. -/
def loopStep (rng : ℕ → ℚ) (shuffle : List FloorLevel → List FloorLevel)
    (inp : Input) (dt : ℚ) (s : GameState) : GameState :=
  if s.isRunning then update rng shuffle inp dt s else s

/-- `GameEngine.reset`. -/
def reset (rng : ℕ → ℚ) (shuffle : List FloorLevel → List FloorLevel)
    (s : GameState) : GameState :=
  let s1 := { s with score := 0, lives := 3,
                     events := s.events ++ [Event.score 0, Event.lives 3] }
  { initLevelState rng shuffle s1 with isRunning := true }

/-! ## Preservation lemmas for the collision resolver -/

/-- The vertical-state projection of an entity. -/
def ySideOf (e : Entity) : ℚ × ℚ × Bool := (e.rect.y, e.velocity.y, e.grounded)

/-- The horizontal-state projection of an entity. -/
def xSideOf (e : Entity) : ℚ × ℚ := (e.rect.x, e.velocity.x)

/-- The fields no collision resolution ever touches. -/
def metaOf (e : Entity) : ℕ × EntityType × ℚ × Bool × ℕ × ℚ × String × ℚ × ℚ :=
  (e.id, e.type, e.direction, e.onLadder, e.animFrame, e.animTimer, e.tex, e.rect.w, e.rect.h)

lemma collideStep_x_ySide (e : Entity) (s : Rect) :
    ySideOf (collideStep .x e s) = ySideOf e := by
  simp only [collideStep, ySideOf]
  split
  · split <;> first | (split <;> simp_all) | simp_all
  · rfl

lemma collideStep_x_meta (e : Entity) (s : Rect) :
    metaOf (collideStep .x e s) = metaOf e := by
  simp only [collideStep, metaOf]
  split
  · split <;> first | (split <;> simp_all) | simp_all
  · rfl

lemma collideStep_y_xSide (e : Entity) (s : Rect) :
    xSideOf (collideStep .y e s) = xSideOf e := by
  simp only [collideStep, xSideOf]
  split
  · split <;> first | (split <;> simp_all) | simp_all
  · rfl

lemma collideStep_y_meta (e : Entity) (s : Rect) :
    metaOf (collideStep .y e s) = metaOf e := by
  simp only [collideStep, metaOf]
  split
  · split <;> first | (split <;> simp_all) | simp_all
  · rfl

lemma hc_x_ySide (solids : List Rect) : ∀ e : Entity,
    ySideOf (handleCollisions e .x solids) = ySideOf e := by
  induction solids with
  | nil => intro e; rfl
  | cons s rest ih =>
      intro e
      calc ySideOf (handleCollisions (collideStep .x e s) .x rest)
          = ySideOf (collideStep .x e s) := ih _
        _ = ySideOf e := collideStep_x_ySide e s

lemma hc_x_meta (solids : List Rect) : ∀ e : Entity,
    metaOf (handleCollisions e .x solids) = metaOf e := by
  induction solids with
  | nil => intro e; rfl
  | cons s rest ih =>
      intro e
      calc metaOf (handleCollisions (collideStep .x e s) .x rest)
          = metaOf (collideStep .x e s) := ih _
        _ = metaOf e := collideStep_x_meta e s

lemma hc_y_xSide (solids : List Rect) : ∀ e : Entity,
    xSideOf (handleCollisions e .y solids) = xSideOf e := by
  induction solids with
  | nil => intro e; rfl
  | cons s rest ih =>
      intro e
      calc xSideOf (handleCollisions (collideStep .y e s) .y rest)
          = xSideOf (collideStep .y e s) := ih _
        _ = xSideOf e := collideStep_y_xSide e s

lemma hc_y_meta (solids : List Rect) : ∀ e : Entity,
    metaOf (handleCollisions e .y solids) = metaOf e := by
  induction solids with
  | nil => intro e; rfl
  | cons s rest ih =>
      intro e
      calc metaOf (handleCollisions (collideStep .y e s) .y rest)
          = metaOf (collideStep .y e s) := ih _
        _ = metaOf e := collideStep_y_meta e s

/-- An x-resolution step on an entity with zero horizontal velocity is the
identity: the resolver only snaps for strictly signed velocities. -/
lemma collideStep_x_zero (e : Entity) (s : Rect) (h : e.velocity.x = 0) :
    collideStep .x e s = e := by
  simp only [collideStep, h]
  split
  · simp only [lt_irrefl, if_false, lt_self_iff_false]
    cases e with
    | mk i t r v g o d af atm tx => cases v; simp_all
  · rfl

/-- A y-resolution step on an entity with zero vertical velocity is the
identity. -/
lemma collideStep_y_zero (e : Entity) (s : Rect) (h : e.velocity.y = 0) :
    collideStep .y e s = e := by
  simp only [collideStep, h]
  split <;> simp

lemma hc_x_zero (solids : List Rect) : ∀ e : Entity, e.velocity.x = 0 →
    handleCollisions e .x solids = e := by
  induction solids with
  | nil => intro e _; rfl
  | cons s rest ih =>
      intro e h
      show handleCollisions (collideStep .x e s) .x rest = e
      rw [collideStep_x_zero e s h]; exact ih e h

lemma hc_y_zero (solids : List Rect) : ∀ e : Entity, e.velocity.y = 0 →
    handleCollisions e .y solids = e := by
  induction solids with
  | nil => intro e _; rfl
  | cons s rest ih =>
      intro e h
      show handleCollisions (collideStep .y e s) .y rest = e
      rw [collideStep_y_zero e s h]; exact ih e h

/-- Rebuilding an entity with its own `x` is the identity. -/
lemma entity_with_x_self (e : Entity) (q : ℚ) (h : q = e.rect.x) :
    { e with rect := { e.rect with x := q } } = e := by
  cases e with
  | mk i t r v g o d af atm tx => cases r; simp_all

/-- Rebuilding an entity with its own `y` is the identity. -/
lemma entity_with_y_self (e : Entity) (q : ℚ) (h : q = e.rect.y) :
    { e with rect := { e.rect with y := q } } = e := by
  cases e with
  | mk i t r v g o d af atm tx => cases r; simp_all

/-- One y-resolution step sets `grounded` exactly on a downward collision. -/
lemma collideStep_y_grounded (e : Entity) (s : Rect) :
    (collideStep .y e s).grounded
      = (e.grounded || (checkCollision e.rect s && decide (e.velocity.y < 0))) := by
  simp only [collideStep]
  split
  · split
    · next hv => simp [decide_eq_false (not_lt.mpr (le_of_lt hv) : ¬ e.velocity.y < 0)]
    · split <;> simp_all
  · simp_all

/-- Whether the y-pass over `solids` meets at least one downward collision
along the way (the resolution states evolve exactly as in the pass). -/
def yPassLands (e : Entity) : List Rect → Bool
  | [] => false
  | s :: rest =>
      (checkCollision e.rect s && decide (e.velocity.y < 0)) ||
        yPassLands (collideStep .y e s) rest

/-- After a y-pass, `grounded` holds iff it held before or some downward
collision occurred during the pass. -/
lemma hc_y_grounded (solids : List Rect) : ∀ e : Entity,
    (handleCollisions e .y solids).grounded = (e.grounded || yPassLands e solids) := by
  induction solids with
  | nil => intro e; simp [handleCollisions, yPassLands]
  | cons s rest ih =>
      intro e
      show (handleCollisions (collideStep .y e s) .y rest).grounded = _
      rw [ih, collideStep_y_grounded, yPassLands, Bool.or_assoc]

/-- The y-pass preserves the invariant "grounded implies zero vertical
velocity". -/
lemma collideStep_y_inv (e : Entity) (s : Rect)
    (h : e.grounded = true → e.velocity.y = 0) :
    (collideStep .y e s).grounded = true → (collideStep .y e s).velocity.y = 0 := by
  simp only [collideStep]
  split
  · split
    · simp
    · split <;> simp_all
  · exact h

lemma hc_y_inv (solids : List Rect) : ∀ e : Entity,
    (e.grounded = true → e.velocity.y = 0) →
    (handleCollisions e .y solids).grounded = true →
    (handleCollisions e .y solids).velocity.y = 0 := by
  induction solids with
  | nil => intro e h; exact h
  | cons s rest ih =>
      intro e h
      exact ih (collideStep .y e s) (collideStep_y_inv e s h)

/-- C3 — movement integration resolves x before y, `grounded` is cleared at
the start of the vertical pass and set exactly by downward collisions (which
zero `vy`), while ceiling collisions zero `vy` without setting `grounded`,
and each snap goes to the near edge of the overlapping solid. -/
theorem claim3_axis_separated_movement (e : Entity) (dt : ℚ) (solids : List Rect) (s : Rect) :
    (moveEntity e dt solids =
      handleCollisions
        { handleCollisions { e with rect := { e.rect with x := e.rect.x + e.velocity.x * dt } }
            .x solids with
          rect := { (handleCollisions { e with rect :=
                      { e.rect with x := e.rect.x + e.velocity.x * dt } } .x solids).rect with
                    y := (handleCollisions { e with rect :=
                      { e.rect with x := e.rect.x + e.velocity.x * dt } } .x solids).rect.y
                      + (handleCollisions { e with rect :=
                      { e.rect with x := e.rect.x + e.velocity.x * dt } } .x solids).velocity.y
                        * dt },
          grounded := false } .y solids)
    ∧ ((handleCollisions e .x solids).rect.y = e.rect.y
        ∧ (handleCollisions e .x solids).velocity.y = e.velocity.y
        ∧ (handleCollisions e .x solids).grounded = e.grounded)
    ∧ (handleCollisions e .y solids).grounded = (e.grounded || yPassLands e solids)
    ∧ (e.grounded = false → (handleCollisions e .y solids).grounded = true →
        (handleCollisions e .y solids).velocity.y = 0)
    ∧ (checkCollision e.rect s = true →
        (e.velocity.y < 0 →
          collideStep .y e s
            = { e with rect := { e.rect with y := s.y + s.h },
                       velocity := { e.velocity with y := 0 }, grounded := true })
        ∧ (0 < e.velocity.y →
          collideStep .y e s
            = { e with rect := { e.rect with y := s.y - e.rect.h },
                       velocity := { e.velocity with y := 0 } })
        ∧ (0 < e.velocity.x →
          collideStep .x e s
            = { e with rect := { e.rect with x := s.x - e.rect.w },
                       velocity := { e.velocity with x := 0 } })
        ∧ (e.velocity.x < 0 →
          collideStep .x e s
            = { e with rect := { e.rect with x := s.x + s.w },
                       velocity := { e.velocity with x := 0 } })) := by
  refine ⟨rfl, ?_, hc_y_grounded solids e, ?_, ?_⟩
  · have h1 := hc_x_ySide solids e
    simp only [ySideOf, Prod.mk.injEq] at h1
    exact ⟨h1.1, h1.2.1, h1.2.2⟩
  · intro hg
    exact hc_y_inv solids e (by intro hc; rw [hg] at hc; exact absurd hc (by simp))
  · intro hcc
    refine ⟨?_, ?_, ?_, ?_⟩ <;> intro hv <;> simp only [collideStep, hcc, if_true] <;>
      simp [hv, not_lt.mpr (le_of_lt hv), asymm hv]

/-- Concrete run of C3: an entity falling with `vy = -10` from just above a
floor tile lands on it: `grounded` is set, `vy` is zeroed, and `y` snaps to
the tile's top edge. -/
theorem claim3_witness :
    (let eW : Entity :=
      { id := 1, type := .PLAYER, rect := ⟨0, 17, 12, 16⟩, velocity := ⟨0, -10⟩,
        grounded := false, onLadder := false, direction := 1,
        animFrame := 0, animTimer := 0, tex := "" }
     let sW : Rect := ⟨0, 0, 16, 16⟩
     (moveEntity eW 1 [sW]).grounded = true ∧ (moveEntity eW 1 [sW]).velocity.y = 0
       ∧ (moveEntity eW 1 [sW]).rect.y = 16) := by
  have h := claim3_axis_separated_movement
    { id := 1, type := .PLAYER, rect := ⟨0, 7, 12, 16⟩, velocity := ⟨0, -10⟩,
      grounded := false, onLadder := false, direction := 1,
      animFrame := 0, animTimer := 0, tex := "" } 1 [⟨0, 0, 16, 16⟩] ⟨0, 0, 16, 16⟩
  have h5 := (h.2.2.2.2 (by with_unfolding_all decide)).1 (by norm_num)
  refine ⟨?_, ?_, ?_⟩ <;> with_unfolding_all decide

/-- C5 — the AABB overlap test is symmetric, and rectangles sharing only an
edge (touching boundary) do not overlap. -/
theorem claim5_aabb_symmetric_strict (r1 r2 : Rect) :
    checkCollision r1 r2 = checkCollision r2 r1
    ∧ ((r1.x + r1.w = r2.x ∨ r2.x + r2.w = r1.x ∨ r1.y + r1.h = r2.y ∨ r2.y + r2.h = r1.y) →
        checkCollision r1 r2 = false) := by
  constructor
  · rw [Bool.eq_iff_iff]
    simp only [checkCollision, Bool.and_eq_true, decide_eq_true_eq]
    constructor <;> rintro ⟨⟨⟨a, b⟩, c⟩, d⟩ <;> exact ⟨⟨⟨b, a⟩, d⟩, c⟩
  · rintro (h | h | h | h) <;> simp [checkCollision, h]

/-- Concrete run of C5: two unit tiles sharing a vertical edge do not
collide, in either order. -/
theorem claim5_witness :
    ((⟨0, 0, 16, 16⟩ : Rect).x + (⟨0, 0, 16, 16⟩ : Rect).w = (⟨16, 0, 16, 16⟩ : Rect).x)
    ∧ checkCollision ⟨0, 0, 16, 16⟩ ⟨16, 0, 16, 16⟩ = false
    ∧ checkCollision ⟨0, 0, 16, 16⟩ ⟨16, 0, 16, 16⟩
        = checkCollision ⟨16, 0, 16, 16⟩ ⟨0, 0, 16, 16⟩ := by
  have h := claim5_aabb_symmetric_strict ⟨0, 0, 16, 16⟩ ⟨16, 0, 16, 16⟩
  exact ⟨by norm_num, h.2 (Or.inl (by norm_num)), h.1⟩

/-- With both velocity components zero, a full movement step only clears
`grounded`: the position is untouched. -/
lemma moveEntity_zero (e : Entity) (dt : ℚ) (solids : List Rect)
    (hx : e.velocity.x = 0) (hy : e.velocity.y = 0) :
    moveEntity e dt solids = { e with grounded := false } := by
  have h1 : ({ e with rect := { e.rect with x := e.rect.x + e.velocity.x * dt } } : Entity) = e :=
    entity_with_x_self e _ (by rw [hx]; ring)
  simp only [moveEntity, h1, hc_x_zero solids e hx, hy, zero_mul, add_zero]
  exact hc_y_zero solids { e with grounded := false } hy

/-- C8 — a collision pass on an axis with zero velocity on that axis is the
identity: in particular an entity embedded in a solid with zero velocity
stays embedded through a whole movement step. -/
theorem claim8_zero_velocity_no_snap (e : Entity) (dt : ℚ) (solids : List Rect) (s : Rect) :
    (e.velocity.x = 0 → handleCollisions e .x solids = e)
    ∧ (e.velocity.y = 0 → handleCollisions e .y solids = e)
    ∧ (e.velocity.x = 0 → e.velocity.y = 0 → s ∈ solids → checkCollision e.rect s = true →
        checkCollision (moveEntity e dt solids).rect s = true) := by
  refine ⟨hc_x_zero solids e, hc_y_zero solids e, ?_⟩
  intro hx hy _ hcc
  rw [moveEntity_zero e dt solids hx hy]
  exact hcc

/-- Concrete run of C8: an entity overlapping a tile with zero velocity is
left exactly in place by both passes and stays overlapping. -/
theorem claim8_witness :
    (let eW : Entity :=
      { id := 1, type := .GIFT, rect := ⟨4, 4, 16, 16⟩, velocity := ⟨0, 0⟩,
        grounded := false, onLadder := false, direction := 1,
        animFrame := 0, animTimer := 0, tex := "" }
     let sW : Rect := ⟨0, 0, 16, 16⟩
     handleCollisions eW .x [sW] = eW ∧ handleCollisions eW .y [sW] = eW
       ∧ checkCollision (moveEntity eW 1 [sW]).rect sW = true) := by
  have h := claim8_zero_velocity_no_snap
    { id := 1, type := .GIFT, rect := ⟨4, 4, 16, 16⟩, velocity := ⟨0, 0⟩,
      grounded := false, onLadder := false, direction := 1,
      animFrame := 0, animTimer := 0, tex := "" } 1 [⟨0, 0, 16, 16⟩] ⟨0, 0, 16, 16⟩
  exact ⟨h.1 rfl, h.2.1 rfl, h.2.2 rfl rfl (by simp) (by with_unfolding_all decide)⟩

/-- A movement step never touches the identity, type, facing, ladder flag,
animation fields or the rectangle extents. -/
lemma moveEntity_meta (e : Entity) (dt : ℚ) (solids : List Rect) :
    metaOf (moveEntity e dt solids) = metaOf e := by
  simp only [moveEntity]
  rw [hc_y_meta]
  have h := hc_x_meta solids { e with rect := { e.rect with x := e.rect.x + e.velocity.x * dt } }
  simp only [metaOf, Prod.mk.injEq] at h ⊢
  exact h

/-- A movement step of an entity with zero horizontal velocity keeps the
horizontal velocity zero and touches neither `rect.x` nor the facing
direction nor the type. -/
lemma moveEntity_vx0 (e : Entity) (dt : ℚ) (solids : List Rect) (hx : e.velocity.x = 0) :
    (moveEntity e dt solids).velocity.x = 0
    ∧ (moveEntity e dt solids).rect.x = e.rect.x
    ∧ (moveEntity e dt solids).direction = e.direction
    ∧ (moveEntity e dt solids).type = e.type := by
  have h1 : ({ e with rect := { e.rect with x := e.rect.x + e.velocity.x * dt } } : Entity) = e :=
    entity_with_x_self e _ (by rw [hx]; ring)
  simp only [moveEntity, h1, hc_x_zero solids e hx]
  have h := hc_y_xSide solids
    { e with rect := { e.rect with y := e.rect.y + e.velocity.y * dt }, grounded := false }
  have hm := hc_y_meta solids
    { e with rect := { e.rect with y := e.rect.y + e.velocity.y * dt }, grounded := false }
  simp only [xSideOf, metaOf, Prod.mk.injEq] at h hm
  exact ⟨by rw [h.2]; exact hx, h.1, hm.2.2.1, hm.2.1⟩

/-- The facing direction survives `constrainToWorld`; a zero horizontal
velocity stays zero; and an in-bounds horizontal position is untouched. -/
lemma constrainEntity_facts (e : Entity) :
    (constrainEntity e).direction = e.direction
    ∧ (constrainEntity e).type = e.type
    ∧ (e.velocity.x = 0 → (constrainEntity e).velocity.x = 0)
    ∧ (0 ≤ e.rect.x → e.rect.x + e.rect.w ≤ worldW →
        (constrainEntity e).rect.x = e.rect.x ∧ (constrainEntity e).velocity.x = e.velocity.x) := by
  refine ⟨?_, ?_, ?_, ?_⟩
  · simp only [constrainEntity]
    split <;> split <;> split <;> simp_all
  · simp only [constrainEntity]
    split <;> split <;> split <;> simp_all
  · intro hx
    simp only [constrainEntity]
    split <;> split <;> split <;> simp_all
  · intro h0 hw
    have hx : ¬ e.rect.x < 0 := not_lt.mpr h0
    have hw2 : ¬ e.rect.x + e.rect.w > worldW := not_lt.mpr hw
    simp only [constrainEntity, hx, if_false, hw2]
    split <;> simp_all

/-- `reindeerAnim` only touches the animation counters. -/
lemma reindeerAnim_pres (dt : ℚ) (e : Entity) :
    (reindeerAnim dt e).direction = e.direction
    ∧ (reindeerAnim dt e).velocity = e.velocity
    ∧ (reindeerAnim dt e).rect = e.rect := by
  simp only [reindeerAnim]
  split
  · split <;> simp
  · simp

/-- `wallReversal` on a zero-direction, zero-velocity entity keeps both zero
and never touches the rectangle. -/
lemma wallReversal_pres (e : Entity) :
    (wallReversal e).rect = e.rect
    ∧ (wallReversal e).velocity = e.velocity
    ∧ (e.direction = 0 → (wallReversal e).direction = 0) := by
  simp only [wallReversal]
  split
  · exact ⟨rfl, rfl, by intro h; simp [h]⟩
  · exact ⟨rfl, rfl, by intro h; simp [h]⟩

/-- C9 — a chase frame with exact horizontal alignment (`distX = 0`) pins the
enemy: `Math.sign(0) = 0` zeroes both the facing direction and the
horizontal velocity, and the wall-reversal rule (`direction *= -1` when the
resolved horizontal velocity is zero) preserves direction `0`, so a pinned
enemy outside chase range keeps direction `0`, zero patrol velocity and a
frozen horizontal position (while it stays inside the world bounds). -/
theorem claim9_sign_zero_pins_enemy (pRect : Rect) (dt : ℚ) (solids : List Rect) (e : Entity) :
    (|e.rect.y - pRect.y| < TILE_SIZE → pRect.x - e.rect.x = 0 →
      (updateEnemyMotion pRect dt solids e).direction = 0
      ∧ (updateEnemyMotion pRect dt solids e).velocity.x = 0)
    ∧ (e.direction = 0 →
      ¬ (|e.rect.y - pRect.y| < TILE_SIZE ∧ |pRect.x - e.rect.x| < TILE_SIZE * 8) →
      0 ≤ e.rect.x → e.rect.x + e.rect.w ≤ worldW →
      (updateEnemyMotion pRect dt solids e).direction = 0
      ∧ (updateEnemyMotion pRect dt solids e).velocity.x = 0
      ∧ (updateEnemyMotion pRect dt solids e).rect.x = e.rect.x) := by
  constructor
  · intro hY hX
    have hcond : |e.rect.y - pRect.y| < TILE_SIZE ∧ |pRect.x - e.rect.x| < TILE_SIZE * 8 := by
      refine ⟨hY, ?_⟩
      rw [hX]
      norm_num [TILE_SIZE]
    have hsign : jsSign (pRect.x - e.rect.x) = 0 := by rw [hX]; simp [jsSign]
    simp only [updateEnemyMotion, if_pos hcond, hsign, zero_mul]
    have hm := moveEntity_vx0
      { e with direction := 0, velocity := ⟨0, e.velocity.y - GRAVITY * dt⟩ } dt solids rfl
    have hc := constrainEntity_facts
      (moveEntity { e with direction := 0, velocity := ⟨0, e.velocity.y - GRAVITY * dt⟩ } dt solids)
    have ha := reindeerAnim_pres dt
      (constrainEntity (moveEntity
        { e with direction := 0, velocity := ⟨0, e.velocity.y - GRAVITY * dt⟩ } dt solids))
    have hw := wallReversal_pres
      (reindeerAnim dt (constrainEntity (moveEntity
        { e with direction := 0, velocity := ⟨0, e.velocity.y - GRAVITY * dt⟩ } dt solids)))
    constructor
    · exact hw.2.2 (by rw [ha.1, hc.1, hm.2.2.1])
    · rw [hw.2.1, ha.2.1]
      exact hc.2.2.1 hm.1
  · intro hd hnc h0 hw0
    simp only [updateEnemyMotion, if_neg hnc, hd, zero_mul]
    have hm := moveEntity_vx0
      { e with direction := 0, velocity := ⟨0, e.velocity.y - GRAVITY * dt⟩ } dt solids rfl
    have hc := constrainEntity_facts
      (moveEntity { e with direction := 0, velocity := ⟨0, e.velocity.y - GRAVITY * dt⟩ } dt solids)
    have ha := reindeerAnim_pres dt
      (constrainEntity (moveEntity
        { e with direction := 0, velocity := ⟨0, e.velocity.y - GRAVITY * dt⟩ } dt solids))
    have hwr := wallReversal_pres
      (reindeerAnim dt (constrainEntity (moveEntity
        { e with direction := 0, velocity := ⟨0, e.velocity.y - GRAVITY * dt⟩ } dt solids)))
    have hx3 : (moveEntity { e with direction := 0, velocity := ⟨0, e.velocity.y - GRAVITY * dt⟩ } dt solids).rect.x
        = e.rect.x := hm.2.1
    have hw3 : (moveEntity { e with direction := 0, velocity := ⟨0, e.velocity.y - GRAVITY * dt⟩ } dt solids).rect.w
        = e.rect.w := by
      have hmm := moveEntity_meta { e with direction := 0, velocity := ⟨0, e.velocity.y - GRAVITY * dt⟩ } dt solids
      simp only [metaOf, Prod.mk.injEq] at hmm
      exact hmm.2.2.2.2.2.2.2.1
    refine ⟨?_, ?_, ?_⟩
    · exact hwr.2.2 (by rw [ha.1, hc.1, hm.2.2.1])
    · rw [hwr.2.1, ha.2.1]
      exact hc.2.2.1 hm.1
    · rw [hwr.1, ha.2.2]
      exact ((hc.2.2.2 (by rw [hx3]; exact h0) (by rw [hx3, hw3]; exact hw0)).1).trans hx3

/-- Concrete run of C9: an enemy exactly aligned with the player is pinned to
direction 0 and zero horizontal velocity; an already-pinned enemy out of
chase range does not move horizontally. -/
theorem claim9_witness :
    ((updateEnemyMotion ⟨100, 50, 12, 16⟩ (1/10) []
        { id := 2, type := .ENEMY_SNOWMAN, rect := ⟨100, 50, 12, 16⟩, velocity := ⟨5, 0⟩,
          grounded := false, onLadder := false, direction := 1,
          animFrame := 0, animTimer := 0, tex := "snowman" }).direction = 0
      ∧ (updateEnemyMotion ⟨100, 50, 12, 16⟩ (1/10) []
        { id := 2, type := .ENEMY_SNOWMAN, rect := ⟨100, 50, 12, 16⟩, velocity := ⟨5, 0⟩,
          grounded := false, onLadder := false, direction := 1,
          animFrame := 0, animTimer := 0, tex := "snowman" }).velocity.x = 0)
    ∧ ((updateEnemyMotion ⟨0, 500, 12, 16⟩ (1/10) []
        { id := 3, type := .ENEMY_SNOWMAN, rect := ⟨100, 50, 12, 16⟩, velocity := ⟨0, 0⟩,
          grounded := false, onLadder := false, direction := 0,
          animFrame := 0, animTimer := 0, tex := "snowman" }).direction = 0
      ∧ (updateEnemyMotion ⟨0, 500, 12, 16⟩ (1/10) []
        { id := 3, type := .ENEMY_SNOWMAN, rect := ⟨100, 50, 12, 16⟩, velocity := ⟨0, 0⟩,
          grounded := false, onLadder := false, direction := 0,
          animFrame := 0, animTimer := 0, tex := "snowman" }).rect.x = 100) := by
  constructor
  · exact (claim9_sign_zero_pins_enemy ⟨100, 50, 12, 16⟩ (1/10) [] _).1
      (by with_unfolding_all decide) (by with_unfolding_all decide)
  · have h := (claim9_sign_zero_pins_enemy ⟨0, 500, 12, 16⟩ (1/10) []
      { id := 3, type := .ENEMY_SNOWMAN, rect := ⟨100, 50, 12, 16⟩, velocity := ⟨0, 0⟩,
        grounded := false, onLadder := false, direction := 0,
        animFrame := 0, animTimer := 0, tex := "snowman" }).2
      rfl (by with_unfolding_all decide) (by with_unfolding_all decide)
      (by with_unfolding_all decide)
    exact ⟨h.1, h.2.2⟩

/-! ## Player lookup and state-level helper lemmas -/

lemma getPlayer_eq (s : GameState) (p : Entity)
    (hp : s.entities.find? (fun e => e.id == s.playerId) = some p) : getPlayer s = p := by
  simp [getPlayer, hp]

/-- Replacing the player inside the list commutes with the first-match
lookup, provided the replacement keeps the id. -/
lemma find?_replace (l : List Entity) (pid : ℕ) (f : Entity → Entity)
    (hf : ∀ e, (f e).id = e.id) (p : Entity)
    (hp : l.find? (fun e => e.id == pid) = some p) :
    (l.map (fun e => if e.id = pid then f e else e)).find? (fun e => e.id == pid)
      = some (f p) := by
  rw [List.find?_map]
  have hcomp : ((fun e : Entity => e.id == pid) ∘ (fun e => if e.id = pid then f e else e))
      = (fun e : Entity => e.id == pid) := by
    funext e
    by_cases h : e.id = pid <;> simp [h, hf]
  rw [hcomp, hp]
  have hid : p.id = pid := by simpa using List.find?_some hp
  simp [hid]

lemma getPlayer_setPlayer (s : GameState) (f : Entity → Entity)
    (hf : ∀ e, (f e).id = e.id) (p : Entity)
    (hp : s.entities.find? (fun e => e.id == s.playerId) = some p) :
    getPlayer (setPlayer s f) = f p := by
  simp only [getPlayer, setPlayer]
  rw [find?_replace s.entities s.playerId f hf p hp]
  rfl

/-- With pairwise-distinct ids, replacing the player with a fixpoint of `f`
leaves the list unchanged. -/
lemma map_replace_eq_self (pid : ℕ) (f : Entity → Entity) (p : Entity) (hfp : f p = p) :
    ∀ l : List Entity, (l.map Entity.id).Nodup →
    l.find? (fun e => e.id == pid) = some p →
    l.map (fun e => if e.id = pid then f e else e) = l := by
  intro l
  induction l with
  | nil => intro _ hp; cases hp
  | cons a rest ih =>
      intro hN hp
      by_cases ha : a.id = pid
      · have hpa : a = p := by
          rw [List.find?_cons_of_pos] at hp
          · exact Option.some.inj hp
          · simpa using ha
        subst hpa
        have hrest : ∀ e ∈ rest, e.id ≠ pid := by
          intro e he hcon
          have : a.id ∈ rest.map Entity.id := by
            rw [ha, ← hcon]
            exact List.mem_map_of_mem Entity.id he
          simp only [List.map_cons, List.nodup_cons] at hN
          exact hN.1 this
        simp only [List.map_cons, if_pos ha, hfp, List.cons.injEq, true_and]
        calc rest.map (fun e => if e.id = pid then f e else e)
            = rest.map id := by
              apply List.map_congr_left
              intro e he
              simp [hrest e he]
          _ = rest := List.map_id rest
      · rw [List.find?_cons_of_neg] at hp
        · simp only [List.map_cons, if_neg ha, List.cons.injEq, true_and]
          exact ih (by simp only [List.map_cons, List.nodup_cons] at hN; exact hN.2) hp
        · simpa using ha

lemma setPlayer_eq_self (s : GameState) (f : Entity → Entity) (p : Entity)
    (hfp : f p = p) (hN : (s.entities.map Entity.id).Nodup)
    (hp : s.entities.find? (fun e => e.id == s.playerId) = some p) :
    setPlayer s f = s := by
  show { s with entities := _ } = s
  rw [map_replace_eq_self s.playerId f p hfp s.entities hN hp]

/-- The world clamp is the identity on an in-bounds horizontal position. -/
lemma clampX_id (e : Entity) (h0 : 0 ≤ e.rect.x) (hw : e.rect.x + e.rect.w ≤ worldW) :
    clampX e = e := by
  simp only [clampX, not_lt.mpr h0, if_false, not_lt.mpr hw]

/-- C1 — a player-hit event decrements lives by exactly one and reports the
new value; at zero or below it halts the clock, reports game over and does
not reposition; otherwise it respawns the player at
`(12·TILE_SIZE, 7·TILE_SIZE)` with zero velocity, leaving score, lives and
the clock otherwise untouched.  The player falling below `y = 0` (inside the
world's horizontal range) routes `constrainToWorld` into exactly this
handler. -/
theorem claim1_player_hit_event (s : GameState) (p : Entity)
    (hN : (s.entities.map Entity.id).Nodup)
    (hp : s.entities.find? (fun e => e.id == s.playerId) = some p) :
    (handlePlayerHit s).lives = s.lives - 1
    ∧ (handlePlayerHit s).score = s.score
    ∧ (handlePlayerHit s).events
        = s.events ++ Event.lives (s.lives - 1)
            :: (if s.lives - 1 ≤ 0 then [Event.gameOver] else [])
    ∧ (s.lives - 1 ≤ 0 →
        (handlePlayerHit s).isRunning = false ∧ (handlePlayerHit s).entities = s.entities)
    ∧ (0 < s.lives - 1 →
        (handlePlayerHit s).isRunning = s.isRunning
        ∧ getPlayer (handlePlayerHit s)
            = { p with rect := { p.rect with x := TILE_SIZE * 12, y := TILE_SIZE * 7 },
                       velocity := ⟨0, 0⟩ })
    ∧ (p.rect.y < 0 → 0 ≤ p.rect.x → p.rect.x + p.rect.w ≤ worldW →
        constrainPlayer s = handlePlayerHit s) := by
  refine ⟨?_, ?_, ?_, ?_, ?_, ?_⟩
  · simp only [handlePlayerHit]
    split <;> rfl
  · simp only [handlePlayerHit]
    split
    · rfl
    · rfl
  · simp only [handlePlayerHit]
    split <;> rename_i h <;> simp [h, setPlayer]
  · intro h0
    simp only [handlePlayerHit]
    split
    · exact ⟨rfl, rfl⟩
    · next hcon => exact absurd h0 hcon
  · intro h0
    have hne : ¬ s.lives - 1 ≤ 0 := not_le.mpr h0
    simp only [handlePlayerHit, if_neg hne]
    refine ⟨rfl, ?_⟩
    exact getPlayer_setPlayer
      { s with lives := s.lives - 1, events := s.events ++ [Event.lives (s.lives - 1)] }
      (fun q => { q with rect := { q.rect with x := TILE_SIZE * 12, y := TILE_SIZE * 7 },
                         velocity := ⟨0, 0⟩ })
      (fun e => rfl) p hp
  · intro hy h0 hw
    have hcl : clampX p = p := clampX_id p h0 hw
    have hsp : setPlayer s clampX = s := setPlayer_eq_self s clampX p hcl hN hp
    simp only [constrainPlayer, hsp, getPlayer_eq s p hp, if_pos hy]

/-- Concrete run of C1: a hit at 2 lives respawns the player at
`(192, 112)` with zero velocity and keeps the clock running; a hit at 1 life
halts the clock and reports game over without repositioning. -/
theorem claim1_witness :
    (let pW : Entity :=
      { id := 1, type := .PLAYER, rect := ⟨50, -3, 12, 16⟩,
        velocity := ⟨7, -9⟩, grounded := false, onLadder := false, direction := 1,
        animFrame := 0, animTimer := 0, tex := "" }
     let sW : GameState :=
      { entities := [pW], solids := [], ladders := [], playerId := 1,
        idCounter := 1, rngIdx := 0, score := 300, lives := 2, isRunning := true, events := [] }
     (handlePlayerHit sW).lives = 1
       ∧ (getPlayer (handlePlayerHit sW)).rect.x = 192
       ∧ (getPlayer (handlePlayerHit sW)).rect.y = 112
       ∧ (getPlayer (handlePlayerHit sW)).velocity = ⟨0, 0⟩
       ∧ (handlePlayerHit sW).score = 300
       ∧ constrainPlayer sW = handlePlayerHit sW
       ∧ (handlePlayerHit { sW with lives := 1 }).isRunning = false
       ∧ (handlePlayerHit { sW with lives := 1 }).entities = sW.entities) := by
  intro pW sW
  have h := claim1_player_hit_event sW pW (by simp) rfl
  have h5 := h.2.2.2.2.1 (by norm_num)
  refine ⟨h.1, ?_, ?_, ?_, h.2.1, ?_, ?_, ?_⟩
  · rw [h5.2]
    norm_num [TILE_SIZE]
  · rw [h5.2]
    norm_num [TILE_SIZE]
  · rw [h5.2]
  · exact h.2.2.2.2.2 (by norm_num) (by norm_num)
      (by norm_num [worldW, WORLD_WIDTH, TILE_SIZE])
  · exact (claim1_player_hit_event { sW with lives := 1 } pW (by simp) rfl).2.2.2.1
      (by norm_num) |>.1
  · exact (claim1_player_hit_event { sW with lives := 1 } pW (by simp) rfl).2.2.2.1
      (by norm_num) |>.2

/-- `checkOverlap` succeeds exactly when some target strictly contains the
center of the probe rectangle. -/
lemma checkOverlap_isSome_iff (r : Rect) : ∀ ls : List Rect,
    (checkOverlap r ls).isSome = true ↔
      ∃ u ∈ ls, r.x + r.w / 2 > u.x ∧ r.x + r.w / 2 < u.x + u.w ∧
        r.y + r.h / 2 > u.y ∧ r.y + r.h / 2 < u.y + u.h := by
  intro ls
  induction ls with
  | nil => simp [checkOverlap]
  | cons t ts ih =>
      simp only [checkOverlap]
      split
      · next hc => simp only [Option.isSome_some, true_iff]; exact ⟨t, by simp, hc⟩
      · next hc =>
          rw [ih]
          constructor
          · rintro ⟨u, hu, h⟩
            exact ⟨u, List.mem_cons_of_mem t hu, h⟩
          · rintro ⟨u, hu, h⟩
            rcases List.mem_cons.mp hu with rfl | hu2
            · exact absurd h hc
            · exact ⟨u, hu2, h⟩

/-- C4 — a frame whose player center lies inside a ladder zone enters
climbing mode: `vx = axis.x·MOVE_SPEED·0.8`, `vy = axis.y·CLIMB_SPEED`,
`grounded` forced true, and with nonzero vertical input and the centers
within 4 units the player is nudged horizontally by `(offset)·10·dt`. -/
theorem claim4_ladder_climbing (ladders : List Rect) (inp : Input) (dt : ℚ)
    (p : Entity) (t : Rect) :
    ((checkOverlap p.rect ladders).isSome = true ↔
      ∃ u ∈ ladders, p.rect.x + p.rect.w / 2 > u.x ∧ p.rect.x + p.rect.w / 2 < u.x + u.w ∧
        p.rect.y + p.rect.h / 2 > u.y ∧ p.rect.y + p.rect.h / 2 < u.y + u.h)
    ∧ (checkOverlap p.rect ladders = some t →
        (playerControlE ladders inp dt p).onLadder = true
        ∧ (playerControlE ladders inp dt p).velocity
            = ⟨inp.ax * MOVE_SPEED * (4/5), inp.ay * CLIMB_SPEED⟩
        ∧ (playerControlE ladders inp dt p).grounded = true
        ∧ (playerControlE ladders inp dt p).rect.x
            = p.rect.x +
              (if inp.ay ≠ 0 ∧ |t.x + t.w / 2 - (p.rect.x + p.rect.w / 2)| < 4
               then (t.x + t.w / 2 - (p.rect.x + p.rect.w / 2)) * 10 * dt else 0)) := by
  refine ⟨checkOverlap_isSome_iff p.rect ladders, ?_⟩
  intro hsome
  simp only [playerControlE, hsome]
  by_cases hay : inp.ay ≠ 0
  · by_cases hnear : |t.x + t.w / 2 - (p.rect.x + p.rect.w / 2)| < 4
    · simp only [if_pos hay, if_pos hnear, if_pos (And.intro hay hnear)]
      split <;> simp
    · simp only [if_pos hay, if_neg hnear,
        if_neg (fun hc : _ ∧ _ => hnear hc.2), add_zero]
      split <;> simp
  · simp only [if_neg hay, if_neg (fun hc : _ ∧ _ => hay hc.1), add_zero]
    split <;> simp

/-- Concrete run of C4: a player centered 2 units left of a ladder's center,
climbing with full input, gets the climbing velocities, forced grounding and
a `2·10·dt` nudge. -/
theorem claim4_witness :
    (playerControlE [⟨4, 0, 8, 16⟩] ⟨1, 1, false⟩ (1/10)
        { id := 1, type := .PLAYER, rect := ⟨0, 0, 12, 16⟩, velocity := ⟨0, 0⟩,
          grounded := false, onLadder := false, direction := 1,
          animFrame := 0, animTimer := 0, tex := "" }).onLadder = true
    ∧ (playerControlE [⟨4, 0, 8, 16⟩] ⟨1, 1, false⟩ (1/10)
        { id := 1, type := .PLAYER, rect := ⟨0, 0, 12, 16⟩, velocity := ⟨0, 0⟩,
          grounded := false, onLadder := false, direction := 1,
          animFrame := 0, animTimer := 0, tex := "" }).velocity = ⟨120, 100⟩
    ∧ (playerControlE [⟨4, 0, 8, 16⟩] ⟨1, 1, false⟩ (1/10)
        { id := 1, type := .PLAYER, rect := ⟨0, 0, 12, 16⟩, velocity := ⟨0, 0⟩,
          grounded := false, onLadder := false, direction := 1,
          animFrame := 0, animTimer := 0, tex := "" }).grounded = true
    ∧ (playerControlE [⟨4, 0, 8, 16⟩] ⟨1, 1, false⟩ (1/10)
        { id := 1, type := .PLAYER, rect := ⟨0, 0, 12, 16⟩, velocity := ⟨0, 0⟩,
          grounded := false, onLadder := false, direction := 1,
          animFrame := 0, animTimer := 0, tex := "" }).rect.x = 2 := by
  have h := (claim4_ladder_climbing [⟨4, 0, 8, 16⟩] ⟨1, 1, false⟩ (1/10)
    { id := 1, type := .PLAYER, rect := ⟨0, 0, 12, 16⟩, velocity := ⟨0, 0⟩,
      grounded := false, onLadder := false, direction := 1,
      animFrame := 0, animTimer := 0, tex := "" } ⟨4, 0, 8, 16⟩).2
    (by with_unfolding_all rfl)
  refine ⟨h.1, ?_, h.2.2.1, ?_⟩
  · rw [h.2.1]
    norm_num [MOVE_SPEED, CLIMB_SPEED]
  · rw [h.2.2.2]
    norm_num

/-- C7 as stated is false of the code: `update` has no terminal-state guard
(only `if (!this.player) return`), so at a game-over state (lives 0, clock
halted) a direct `update()` invocation still moves entities — here a
patrolling snowman advances from `x = 200` to `x = 204` in one frame. -/
theorem claim7_counterexample :
    (let s0 : GameState :=
      { entities :=
          [ { id := 1, type := .PLAYER, rect := ⟨50, 100, 12, 16⟩, velocity := ⟨0, 0⟩,
              grounded := false, onLadder := false, direction := 1,
              animFrame := 0, animTimer := 0, tex := "" },
            { id := 2, type := .ENEMY_SNOWMAN, rect := ⟨200, 100, 12, 16⟩, velocity := ⟨0, 0⟩,
              grounded := false, onLadder := false, direction := 1,
              animFrame := 0, animTimer := 0, tex := "snowman" },
            { id := 3, type := .GIFT, rect := ⟨300, 200, 16, 16⟩, velocity := ⟨0, 0⟩,
              grounded := false, onLadder := false, direction := 1,
              animFrame := 0, animTimer := 0, tex := "gift_red" } ],
        solids := [], ladders := [], playerId := 1, idCounter := 3, rngIdx := 0,
        score := 0, lives := 0, isRunning := false, events := [] }
     s0.lives ≤ 0 ∧ s0.isRunning = false
       ∧ ((update (fun _ => 0) id ⟨0, 0, false⟩ (1/10) s0).entities.find?
            (fun e => e.id == 2)).map (fun e => e.rect.x) = some 204
       ∧ (s0.entities.find? (fun e => e.id == 2)).map (fun e => e.rect.x) = some 200) := by
  with_unfolding_all decide

/-- C7 amended — the terminal state is enforced by the frame loop, not by
`update` itself: with the clock halted (`isRunning = false`, set by the hit
handler when lives reach zero) a loop invocation leaves the state untouched,
until `reset` re-enables the clock; invoking the private `update` directly
would still simulate a frame (see the counterexample). -/
theorem claim7_game_over_halts_loop (rng : ℕ → ℚ)
    (shuffle : List FloorLevel → List FloorLevel) (inp : Input) (dt : ℚ) (s : GameState) :
    (s.isRunning = false → loopStep rng shuffle inp dt s = s)
    ∧ (s.lives - 1 ≤ 0 → (handlePlayerHit s).isRunning = false)
    ∧ (reset rng shuffle s).isRunning = true := by
  refine ⟨?_, ?_, rfl⟩
  · intro h
    simp [loopStep, h]
  · intro h
    simp only [handlePlayerHit, if_pos h]

/-- Concrete run of the amended C7: a halted state is a fixed point of the
frame loop; a hit at 1 life halts the clock; reset re-enables it. -/
theorem claim7_witness :
    (let s0 : GameState :=
      { entities := [], solids := [], ladders := [], playerId := 0,
        idCounter := 0, rngIdx := 0, score := 0, lives := 1, isRunning := false, events := [] }
     loopStep (fun _ => 0) id ⟨0, 0, false⟩ (1/10) s0 = s0
       ∧ (handlePlayerHit s0).isRunning = false
       ∧ (reset (fun _ => 0) id s0).isRunning = true) := by
  intro s0
  have h := claim7_game_over_halts_loop (fun _ => 0) id ⟨0, 0, false⟩ (1/10) s0
  exact ⟨h.1 rfl, h.2.1 (by norm_num), h.2.2⟩

/-- `setPlayer` only rewrites the entity list. -/
@[simp] lemma setPlayer_frame (s : GameState) (f : Entity → Entity) :
    (setPlayer s f).events = s.events ∧ (setPlayer s f).score = s.score
    ∧ (setPlayer s f).lives = s.lives ∧ (setPlayer s f).isRunning = s.isRunning
    ∧ (setPlayer s f).playerId = s.playerId ∧ (setPlayer s f).solids = s.solids
    ∧ (setPlayer s f).ladders = s.ladders ∧ (setPlayer s f).rngIdx = s.rngIdx
    ∧ (setPlayer s f).idCounter = s.idCounter :=
  ⟨rfl, rfl, rfl, rfl, rfl, rfl, rfl, rfl, rfl⟩

/-! ## Score accounting -/

lemma handlePlayerHit_score (s : GameState) : (handlePlayerHit s).score = s.score := by
  simp only [handlePlayerHit]
  split <;> rfl

lemma handlePlayerHit_events (s : GameState) :
    ∃ u, (handlePlayerHit s).events = s.events ++ u := by
  simp only [handlePlayerHit]
  split
  · exact ⟨[Event.lives (s.lives - 1), Event.gameOver], by simp⟩
  · exact ⟨[Event.lives (s.lives - 1)], rfl⟩

/-- One entity-loop iteration either leaves the score alone (appending at
most life/game-over events) or awards exactly 100 and reports the new total
immediately. -/
lemma processEntity_score (dt : ℚ) (s : GameState) (e : Entity) :
    ((processEntity dt s e).score = s.score
      ∧ ∃ u, (processEntity dt s e).events = s.events ++ u)
    ∨ ((processEntity dt s e).score = s.score + 100
      ∧ (processEntity dt s e).events = s.events ++ [Event.score (s.score + 100)]) := by
  simp only [processEntity]
  split
  · exact Or.inl ⟨rfl, [], by simp⟩
  · split
    · split
      · exact Or.inr ⟨rfl, rfl⟩
      · exact Or.inl ⟨rfl, [], by simp⟩
    · split
      · split
        · next =>
            refine Or.inl ⟨?_, ?_⟩
            · exact handlePlayerHit_score _
            · exact handlePlayerHit_events _
        · exact Or.inl ⟨rfl, [], by simp⟩
      · exact Or.inl ⟨rfl, [], by simp⟩

/-- Over the whole entity loop the score is monotone, stays a multiple of
100 and nonnegative, and the last score change is reported in the events
appended during the loop. -/
lemma entityLoop_score (dt : ℚ) : ∀ (rest : List Entity) (s : GameState),
    s.score ≤ (rest.foldl (processEntity dt) s).score
    ∧ ((100:ℤ) ∣ s.score → 100 ∣ (rest.foldl (processEntity dt) s).score)
    ∧ (0 ≤ s.score → 0 ≤ (rest.foldl (processEntity dt) s).score)
    ∧ ∃ u, (rest.foldl (processEntity dt) s).events = s.events ++ u
        ∧ ((rest.foldl (processEntity dt) s).score ≠ s.score →
            Event.score (rest.foldl (processEntity dt) s).score ∈ u) := by
  intro rest
  induction rest with
  | nil =>
      intro s
      exact ⟨le_refl _, fun h => h, fun h => h, [], by simp, fun h => absurd rfl h⟩
  | cons e rest ih =>
      intro s
      have hstep := processEntity_score dt s e
      have hih := ih (processEntity dt s e)
      simp only [List.foldl_cons]
      obtain ⟨hm, hdvd, hnn, u', hu', hmem'⟩ := hih
      rcases hstep with ⟨hsc, u0, hev⟩ | ⟨hsc, hev⟩
      · refine ⟨by rw [hsc] at hm; exact hm,
          fun h => hdvd (by rw [hsc]; exact h),
          fun h => hnn (by rw [hsc]; exact h),
          u0 ++ u', by rw [hu', hev, List.append_assoc], ?_⟩
        intro hne
        have : (rest.foldl (processEntity dt) (processEntity dt s e)).score
            ≠ (processEntity dt s e).score := by rw [hsc]; exact hne
        exact List.mem_append_right u0 (hmem' this)
      · refine ⟨le_trans (by rw [hsc]; omega) hm,
          fun h => hdvd (by rw [hsc]; omega),
          fun h => hnn (by rw [hsc]; omega),
          Event.score (s.score + 100) :: u', by rw [hu', hev]; simp, ?_⟩
        intro _
        by_cases heq : (rest.foldl (processEntity dt) (processEntity dt s e)).score
            = (processEntity dt s e).score
        · rw [heq, hsc]
          exact List.mem_cons_self _ _
        · exact List.mem_cons_of_mem _ (hmem' heq)

lemma prePhase_score (inp : Input) (dt : ℚ) (s : GameState) :
    (prePhase inp dt s).score = s.score
    ∧ ∃ u, (prePhase inp dt s).events = s.events ++ u := by
  simp only [prePhase, constrainPlayer]
  split
  · exact ⟨handlePlayerHit_score _, handlePlayerHit_events _⟩
  · exact ⟨rfl, [], by simp⟩

lemma initLevelState_frame (rng : ℕ → ℚ) (shuffle : List FloorLevel → List FloorLevel)
    (s : GameState) :
    (initLevelState rng shuffle s).score = s.score
    ∧ (initLevelState rng shuffle s).events = s.events
    ∧ (initLevelState rng shuffle s).lives = s.lives
    ∧ (initLevelState rng shuffle s).isRunning = s.isRunning := by
  exact ⟨rfl, rfl, rfl, rfl⟩

/-- The level-clear check either does nothing or awards exactly 1000 with an
immediate report (and only when the gift count is zero with entities left). -/
lemma clearPhase_score (rng : ℕ → ℚ) (shuffle : List FloorLevel → List FloorLevel)
    (s : GameState) :
    ((clearPhase rng shuffle s).score = s.score
      ∧ (clearPhase rng shuffle s).events = s.events)
    ∨ (countGifts s.entities = 0 ∧ 0 < s.entities.length
      ∧ (clearPhase rng shuffle s).score = s.score + 1000
      ∧ (clearPhase rng shuffle s).events = s.events ++ [Event.score (s.score + 1000)]) := by
  simp only [clearPhase]
  split
  · next h => exact Or.inr ⟨h.1, h.2, rfl, rfl⟩
  · exact Or.inl ⟨rfl, rfl⟩

/-- C10 — between resets the score is a nonnegative multiple of 100 and
non-decreasing: a frame preserves nonnegativity and divisibility by 100 and
never lowers the score; the only mutations are +100 per gift pickup and
+1000 on level clear, each immediately reported through the score callback
(the frame's last change is reported inside the frame's appended events),
and reset writes 0 and reports it. -/
theorem claim10_score_invariant (rng : ℕ → ℚ) (shuffle : List FloorLevel → List FloorLevel)
    (inp : Input) (dt : ℚ) (s : GameState) (e : Entity) :
    s.score ≤ (update rng shuffle inp dt s).score
    ∧ ((100:ℤ) ∣ s.score → 100 ∣ (update rng shuffle inp dt s).score)
    ∧ (0 ≤ s.score → 0 ≤ (update rng shuffle inp dt s).score)
    ∧ (∃ u, (update rng shuffle inp dt s).events = s.events ++ u
        ∧ ((update rng shuffle inp dt s).score ≠ s.score →
            Event.score (update rng shuffle inp dt s).score ∈ u))
    ∧ (((processEntity dt s e).score = s.score
        ∧ ∃ u, (processEntity dt s e).events = s.events ++ u)
      ∨ ((processEntity dt s e).score = s.score + 100
        ∧ (processEntity dt s e).events = s.events ++ [Event.score (s.score + 100)]))
    ∧ (reset rng shuffle s).score = 0
    ∧ (reset rng shuffle s).events = s.events ++ [Event.score 0, Event.lives 3] := by
  obtain ⟨hp, u1, hu1⟩ := prePhase_score inp dt s
  obtain ⟨hm, hdvd, hnn, u2, hu2, hmem2⟩ := entityLoop_score dt
    (prePhase inp dt s).entities (prePhase inp dt s)
  have hcl := clearPhase_score rng shuffle
    ((prePhase inp dt s).entities.foldl (processEntity dt) (prePhase inp dt s))
  have hupd : update rng shuffle inp dt s
      = clearPhase rng shuffle
          ((prePhase inp dt s).entities.foldl (processEntity dt) (prePhase inp dt s)) := rfl
  refine ⟨?_, ?_, ?_, ?_, processEntity_score dt s e, rfl, rfl⟩
  · rw [hupd]
    rcases hcl with ⟨h1, _⟩ | ⟨_, _, h1, _⟩ <;> rw [h1] <;> rw [hp] at hm <;> omega
  · intro hd
    rw [hupd]
    have hd2 := hdvd (by rw [hp]; exact hd)
    rcases hcl with ⟨h1, _⟩ | ⟨_, _, h1, _⟩ <;> rw [h1] <;> omega
  · intro hd
    rw [hupd]
    have hd2 := hnn (by rw [hp]; exact hd)
    rcases hcl with ⟨h1, _⟩ | ⟨_, _, h1, _⟩ <;> rw [h1] <;> omega
  · rw [hupd]
    rcases hcl with ⟨h1, h2⟩ | ⟨_, _, h1, h2⟩
    · refine ⟨u1 ++ u2, by rw [h2, hu2, hu1, List.append_assoc], ?_⟩
      intro hne
      rw [h1] at hne ⊢
      have : (List.foldl (processEntity dt) (prePhase inp dt s)
          (prePhase inp dt s).entities).score ≠ (prePhase inp dt s).score := by
        rw [hp]; exact hne
      exact List.mem_append_right u1 (hmem2 this)
    · refine ⟨u1 ++ (u2 ++ [Event.score
          (((prePhase inp dt s).entities.foldl (processEntity dt)
            (prePhase inp dt s)).score + 1000)]), ?_, ?_⟩
      · rw [h2, hu2, hu1]
        simp [List.append_assoc]
      · intro _
        rw [h1]
        exact List.mem_append_right u1 (List.mem_append_right u2 (by simp))

/-! ## Gift-count accounting of `initLevel` -/

lemma countGifts_append (l1 l2 : List Entity) :
    countGifts (l1 ++ l2) = countGifts l1 + countGifts l2 := by
  simp [countGifts, List.filter_append]

lemma countGifts_singleton (e : Entity) :
    countGifts [e] = if e.type = EntityType.GIFT then 1 else 0 := by
  by_cases h : e.type = EntityType.GIFT <;> simp [countGifts, List.filter_singleton, h]

lemma createEntity_type (c : ℕ) (x y : ℚ) (t : EntityType) (tex : String) :
    (createEntity c x y t tex).1.type = t := by
  simp only [createEntity]
  split <;> rfl

/-- The spawn scan never creates a gift. -/
lemma spawnFold_gifts : ∀ (cells : List (ℕ × ℕ)) (acc : List Entity × ℕ × ℕ),
    countGifts (cells.foldl spawnStep acc).1 = countGifts acc.1 := by
  intro cells
  induction cells with
  | nil => intro acc; rfl
  | cons yx rest ih =>
      intro acc
      rw [List.foldl_cons, ih]
      simp only [spawnStep]
      split
      · rw [countGifts_append, countGifts_singleton, createEntity_type]
        simp
      · split
        · rw [countGifts_append, countGifts_singleton, createEntity_type]
          simp
        · split
          · rw [countGifts_append, countGifts_singleton, createEntity_type]
            simp
          · rfl

/-- A first-pass iteration below the target places exactly one gift. -/
lemma giftStepP1_pos (rng : ℕ → ℚ) (target : ℕ) (st : GenSt) (lv : FloorLevel)
    (hlt : st.placed < target) :
    (giftStepP1 rng target st lv).placed = st.placed + 1
    ∧ countGifts (giftStepP1 rng target st lv).ents = countGifts st.ents + 1 := by
  simp only [giftStepP1, if_pos hlt]
  refine ⟨by trivial, ?_⟩
  show countGifts (st.ents ++ [_]) = _
  rw [countGifts_append, countGifts_singleton, createEntity_type]
  simp

/-- First-pass accounting: it fills up to one gift per listed level, capped
by the target. -/
lemma pass1_count (rng : ℕ → ℚ) (target : ℕ) : ∀ (levels : List FloorLevel) (st : GenSt),
    st.placed ≤ target →
    (pass1 rng target levels st).placed = min (st.placed + levels.length) target
    ∧ countGifts (pass1 rng target levels st).ents
        = countGifts st.ents + ((pass1 rng target levels st).placed - st.placed)
    ∧ st.placed ≤ (pass1 rng target levels st).placed := by
  intro levels
  induction levels with
  | nil =>
      intro st hle
      simp only [pass1, List.foldl_nil, List.length_nil, Nat.add_zero]
      omega
  | cons lv rest ih =>
      intro st hle
      simp only [pass1, List.foldl_cons] at ih ⊢
      by_cases hlt : st.placed < target
      · obtain ⟨hpl, hcg⟩ := giftStepP1_pos rng target st lv hlt
        obtain ⟨h1, h2, h3⟩ := ih (giftStepP1 rng target st lv) (by omega)
        rw [hpl] at h1 h2 h3
        refine ⟨?_, ?_, ?_⟩
        · rw [h1, List.length_cons]
          omega
        · rw [h2, hcg]
          omega
        · omega
      · have heq : giftStepP1 rng target st lv = st := by
          simp only [giftStepP1, if_neg hlt]
        rw [heq]
        obtain ⟨h1, h2, h3⟩ := ih st hle
        refine ⟨?_, h2, h3⟩
        rw [h1, List.length_cons]
        omega

/-- A second-pass draw places exactly one gift. -/
lemma giftStepP2_facts (rng : ℕ → ℚ) (cands : List (ℕ × ℕ)) (st : GenSt) :
    (giftStepP2 rng cands st).1.placed = st.placed + 1
    ∧ countGifts (giftStepP2 rng cands st).1.ents = countGifts st.ents + 1 := by
  simp only [giftStepP2]
  refine ⟨by trivial, ?_⟩
  show countGifts (st.ents ++ [_]) = _
  rw [countGifts_append, countGifts_singleton, createEntity_type]
  simp

/-- Second-pass accounting: between zero and `n` additional gifts. -/
lemma pass2_count (rng : ℕ → ℚ) : ∀ (n : ℕ) (cands : List (ℕ × ℕ)) (st : GenSt),
    st.placed ≤ (pass2 rng n cands st).placed
    ∧ (pass2 rng n cands st).placed ≤ st.placed + n
    ∧ countGifts (pass2 rng n cands st).ents
        = countGifts st.ents + ((pass2 rng n cands st).placed - st.placed) := by
  intro n
  induction n with
  | zero =>
      intro cands st
      simp only [pass2]
      omega
  | succ m ih =>
      intro cands st
      simp only [pass2]
      split
      · obtain ⟨hpl, hcg⟩ := giftStepP2_facts rng cands st
        obtain ⟨h1, h2, h3⟩ := ih (giftStepP2 rng cands st).2 (giftStepP2 rng cands st).1
        rw [hpl] at h1 h2 h3
        refine ⟨by omega, by omega, ?_⟩
        rw [h3, hcg]
        omega
      · omega

lemma treeStep_gifts (rng : ℕ → ℚ) (y : ℕ) (st : TreeSt) (x : ℕ) :
    countGifts (treeStep rng y st x).ents = countGifts st.ents := by
  simp only [treeStep]
  split
  · split
    · rw [countGifts_append, countGifts_singleton, createEntity_type]
      simp
    · rfl
  · rfl

lemma treeFold_gifts (rng : ℕ → ℚ) (y : ℕ) : ∀ (xs : List ℕ) (st : TreeSt),
    countGifts ((xs.foldl (treeStep rng y) st)).ents = countGifts st.ents := by
  intro xs
  induction xs with
  | nil => intro st; rfl
  | cons x rest ih =>
      intro st
      rw [List.foldl_cons, ih, treeStep_gifts]

lemma treeFloor_gifts (rng : ℕ → ℚ) (occ : List (ℕ × ℕ)) (acc : List Entity × ℕ × ℕ) (y : ℕ) :
    countGifts (treeFloor rng occ acc y).1 = countGifts acc.1 := by
  simp only [treeFloor]
  rw [treeFold_gifts]

lemma treeRows_gifts (rng : ℕ → ℚ) (occ : List (ℕ × ℕ)) :
    ∀ (ys : List ℕ) (acc : List Entity × ℕ × ℕ),
    countGifts ((ys.foldl (treeFloor rng occ) acc)).1 = countGifts acc.1 := by
  intro ys
  induction ys with
  | nil => intro acc; rfl
  | cons y rest ih =>
      intro acc
      rw [List.foldl_cons, ih, treeFloor_gifts]

/-- The drawn item target lies in `[4, 6]` whenever the random draw obeys
the `Math.random` contract. -/
lemma target_bounds (r : ℚ) (h0 : 0 ≤ r) (h1 : r < 1) :
    4 ≤ (jsFloor (r * 3)).toNat + 4 ∧ (jsFloor (r * 3)).toNat + 4 ≤ 6 := by
  have hnn : (0:ℤ) ≤ jsFloor (r * 3) := Int.floor_nonneg.mpr (by positivity)
  have hlt : jsFloor (r * 3) < 3 := by
    rw [jsFloor, Int.floor_lt]
    push_cast
    linarith
  omega

/-- There are exactly 4 reachable floor levels in the fixed template. -/
lemma reachable_len : reachableFloorLevels.length = 4 := by
  with_unfolding_all decide

/-- The generator state after the first placement pass of `initLevel`. -/
def p1of (rng : ℕ → ℚ) (shuffle : List FloorLevel → List FloorLevel) (c0 k0 : ℕ) : GenSt :=
  pass1 rng ((jsFloor (rng k0 * 3)).toNat + 4) (shuffle reachableFloorLevels)
    { ents := [], occupied := [], placed := 0, c := (scanSpawns c0).2.2, k := k0 + 1 }

/-- The generator state after both placement passes of `initLevel`. -/
def p2of (rng : ℕ → ℚ) (shuffle : List FloorLevel → List FloorLevel) (c0 k0 : ℕ) : GenSt :=
  pass2 rng ((jsFloor (rng k0 * 3)).toNat + 4 - (p1of rng shuffle c0 k0).placed)
    (extraCands (p1of rng shuffle c0 k0).occupied) (p1of rng shuffle c0 k0)

/-- Only the two placement passes contribute gifts to the generated level. -/
lemma initLevel_gift_eq (rng : ℕ → ℚ) (shuffle : List FloorLevel → List FloorLevel)
    (c0 k0 : ℕ) :
    countGifts (initLevel rng shuffle c0 k0).entities
      = countGifts (p2of rng shuffle c0 k0).ents := by
  simp only [initLevel, p2of, p1of, scanSpawns]
  rw [treeRows_gifts, countGifts_append, spawnFold_gifts]
  simp [countGifts]

/-- Gift-count bounds of one `initLevel` run, shared by several claims. -/
lemma initLevel_gift_bounds (rng : ℕ → ℚ) (shuffle : List FloorLevel → List FloorLevel)
    (c0 k0 : ℕ) (hr : ∀ n, 0 ≤ rng n ∧ rng n < 1)
    (hsh : List.Perm (shuffle reachableFloorLevels) reachableFloorLevels) :
    countGifts (p1of rng shuffle c0 k0).ents = 4
    ∧ 4 ≤ countGifts (initLevel rng shuffle c0 k0).entities
    ∧ countGifts (initLevel rng shuffle c0 k0).entities ≤ 6 := by
  obtain ⟨ht4, ht6⟩ := target_bounds (rng k0) (hr k0).1 (hr k0).2
  have hlen : (shuffle reachableFloorLevels).length = 4 := by
    rw [hsh.length_eq, reachable_len]
  obtain ⟨hp1, hc1, hm1⟩ := pass1_count rng ((jsFloor (rng k0 * 3)).toNat + 4)
    (shuffle reachableFloorLevels)
    { ents := [], occupied := [], placed := 0, c := (scanSpawns c0).2.2, k := k0 + 1 }
    (Nat.zero_le _)
  rw [hlen] at hp1
  have hp1v : (p1of rng shuffle c0 k0).placed = 4 := by
    show (pass1 _ _ _ _).placed = 4
    rw [hp1]
    show min (0 + 4) _ = 4
    omega
  have hc1v : countGifts (p1of rng shuffle c0 k0).ents = 4 := by
    show countGifts (pass1 _ _ _ _).ents = 4
    rw [hc1]
    show countGifts ([] : List Entity) + _ = 4
    rw [show (pass1 rng ((jsFloor (rng k0 * 3)).toNat + 4) (shuffle reachableFloorLevels)
      { ents := [], occupied := [], placed := 0, c := (scanSpawns c0).2.2, k := k0 + 1 }).placed
        = 4 from hp1v]
    simp [countGifts]
  obtain ⟨hq1, hq2, hq3⟩ := pass2_count rng
    ((jsFloor (rng k0 * 3)).toNat + 4 - (p1of rng shuffle c0 k0).placed)
    (extraCands (p1of rng shuffle c0 k0).occupied) (p1of rng shuffle c0 k0)
  have hcent : countGifts (initLevel rng shuffle c0 k0).entities
      = countGifts (p2of rng shuffle c0 k0).ents := initLevel_gift_eq rng shuffle c0 k0
  have hq3' : countGifts (p2of rng shuffle c0 k0).ents
      = countGifts (p1of rng shuffle c0 k0).ents
        + ((p2of rng shuffle c0 k0).placed - (p1of rng shuffle c0 k0).placed) := hq3
  have hq1' : (p1of rng shuffle c0 k0).placed ≤ (p2of rng shuffle c0 k0).placed := hq1
  have hq2' : (p2of rng shuffle c0 k0).placed
      ≤ (p1of rng shuffle c0 k0).placed
        + ((jsFloor (rng k0 * 3)).toNat + 4 - (p1of rng shuffle c0 k0).placed) := hq2
  refine ⟨hc1v, ?_, ?_⟩ <;> rw [hcent, hq3', hc1v] <;> omega

/-- C6 — every run of level generation places between 4 and 6 gifts: the
target is drawn uniformly from `[4, 6]`, the first pass places exactly one
gift on each of the 4 reachable floor levels (at most one per level), and
the second pass adds at most `target - 4` more. -/
theorem claim6_gift_count (rng : ℕ → ℚ) (shuffle : List FloorLevel → List FloorLevel)
    (c0 k0 : ℕ) (hr : ∀ n, 0 ≤ rng n ∧ rng n < 1)
    (hsh : List.Perm (shuffle reachableFloorLevels) reachableFloorLevels) :
    (4 ≤ (jsFloor (rng k0 * 3)).toNat + 4 ∧ (jsFloor (rng k0 * 3)).toNat + 4 ≤ 6)
    ∧ countGifts (p1of rng shuffle c0 k0).ents = 4
    ∧ 4 ≤ countGifts (initLevel rng shuffle c0 k0).entities
    ∧ countGifts (initLevel rng shuffle c0 k0).entities ≤ 6 := by
  exact ⟨target_bounds (rng k0) (hr k0).1 (hr k0).2,
    initLevel_gift_bounds rng shuffle c0 k0 hr hsh⟩

set_option maxRecDepth 1000000 in
/-- Concrete run of C6: with the all-zeros stream and the identity shuffle,
generation places exactly 4 gifts, inside the stated bounds. -/
theorem claim6_witness :
    countGifts (initLevel (fun _ => 0) id 0 0).entities = 4
    ∧ 4 ≤ countGifts (initLevel (fun _ => 0) id 0 0).entities
    ∧ countGifts (initLevel (fun _ => 0) id 0 0).entities ≤ 6 := by
  have h := claim6_gift_count (fun _ => 0) id 0 0
    (fun n => ⟨le_refl 0, by norm_num⟩) (List.Perm.refl _)
  refine ⟨?_, h.2.2.1, h.2.2.2⟩
  with_unfolding_all decide

/-! ## Entity-loop conservation (for the last-gift frame) -/

def idsOf (l : List Entity) : List ℕ := l.map Entity.id

lemma mem_unique_of_nodup_ids : ∀ (l : List Entity), (idsOf l).Nodup →
    ∀ x ∈ l, ∀ y ∈ l, x.id = y.id → x = y := by
  intro l
  induction l with
  | nil =>
      intro _ x hx
      cases hx
  | cons a rest ih =>
      intro hN x hx y hy hxy
      simp only [idsOf, List.map_cons, List.nodup_cons] at hN
      rcases List.mem_cons.mp hx with rfl | hx2
      · rcases List.mem_cons.mp hy with rfl | hy2
        · rfl
        · exact absurd (by rw [hxy]; exact List.mem_map_of_mem Entity.id hy2) hN.1
      · rcases List.mem_cons.mp hy with rfl | hy2
        · exact absurd (by rw [← hxy]; exact List.mem_map_of_mem Entity.id hx2) hN.1
        · exact ih hN.2 x hx2 y hy2 hxy

lemma countGifts_eq_countP (l : List Entity) :
    countGifts l = l.countP (fun e => e.type == EntityType.GIFT) := by
  simp [countGifts, List.countP_eq_length_filter]

/-- Removing the unique entity with id `n` — known to be a gift — lowers the
gift count by exactly one. -/
lemma countGifts_remove : ∀ (l : List Entity) (n : ℕ), (idsOf l).Nodup →
    ∀ x ∈ l, x.id = n → x.type = EntityType.GIFT →
    countGifts (l.filter (fun z => !(z.id == n))) + 1 = countGifts l := by
  intro l
  induction l with
  | nil =>
      intro n _ x hx
      cases hx
  | cons a rest ih =>
      intro n hN x hx hxn hxg
      simp only [idsOf, List.map_cons, List.nodup_cons] at hN
      by_cases ha : a.id = n
      · have hxa : x = a := by
          rcases List.mem_cons.mp hx with rfl | hx2
          · rfl
          · exact absurd (by rw [ha, ← hxn]; exact List.mem_map_of_mem Entity.id hx2) hN.1
        subst hxa
        rw [List.filter_cons]
        have hfa : (!(x.id == n)) = false := by simp [ha]
        simp only [hfa, Bool.false_eq_true, if_false]
        have hrest : rest.filter (fun z => !(z.id == n)) = rest := by
          apply List.filter_eq_self.mpr
          intro b hb
          have hbn : b.id ≠ n := by
            intro hc
            exact hN.1 (by rw [ha, ← hc]; exact List.mem_map_of_mem Entity.id hb)
          simp [hbn]
        rw [hrest, show (x :: rest) = [x] ++ rest from rfl, countGifts_append,
          countGifts_singleton, if_pos hxg]
        omega
      · have hx2 : x ∈ rest := by
          rcases List.mem_cons.mp hx with rfl | h2
          · exact absurd hxn ha
          · exact h2
        rw [List.filter_cons]
        have hfa : (!(a.id == n)) = true := by simp [ha]
        simp only [hfa, if_true]
        have hrec := ih n hN.2 x hx2 hxn hxg
        rw [show (a :: rest.filter (fun z => !(z.id == n)))
            = [a] ++ rest.filter (fun z => !(z.id == n)) from rfl,
          show (a :: rest) = [a] ++ rest from rfl, countGifts_append, countGifts_append]
        omega

/-- Replacing the entity with id `m` in-place by an id/type-compatible value
keeps the id list, the gift count, and id/type-matched membership in both
directions. -/
lemma map_setconst_facts (l : List Entity) (m : ℕ) (e' : Entity)
    (hid : e'.id = m) (htype : ∀ x ∈ l, x.id = m → x.type = e'.type) :
    idsOf (l.map (fun x => if x.id = m then e' else x)) = idsOf l
    ∧ countGifts (l.map (fun x => if x.id = m then e' else x)) = countGifts l
    ∧ (∀ x ∈ l, ∃ y ∈ l.map (fun x => if x.id = m then e' else x),
        y.id = x.id ∧ y.type = x.type)
    ∧ (∀ y ∈ l.map (fun x => if x.id = m then e' else x),
        ∃ x ∈ l, y.id = x.id ∧ y.type = x.type) := by
  have hg : ∀ x ∈ l, ((if x.id = m then e' else x)).id = x.id
      ∧ ((if x.id = m then e' else x)).type = x.type := by
    intro x hx
    by_cases h : x.id = m
    · simp only [if_pos h]
      exact ⟨by rw [hid, h], (htype x hx h).symm⟩
    · simp [h]
  refine ⟨?_, ?_, ?_, ?_⟩
  · simp only [idsOf, List.map_map]
    apply List.map_congr_left
    intro x hx
    exact (hg x hx).1
  · rw [countGifts_eq_countP, countGifts_eq_countP, List.countP_map]
    apply List.countP_congr
    intro x hx
    simp only [Function.comp_apply, (hg x hx).2]
  · intro x hx
    exact ⟨_, List.mem_map_of_mem _ hx, (hg x hx).1, (hg x hx).2⟩
  · intro y hy
    obtain ⟨x, hx, rfl⟩ := List.mem_map.mp hy
    exact ⟨x, hx, (hg x hx).1, (hg x hx).2⟩

/-- Same statement for a pointwise replacement function that preserves id
and type (the `setPlayer` shape). -/
lemma map_replace_facts (l : List Entity) (m : ℕ) (f : Entity → Entity)
    (hf : ∀ e, (f e).id = e.id ∧ (f e).type = e.type) :
    idsOf (l.map (fun x => if x.id = m then f x else x)) = idsOf l
    ∧ countGifts (l.map (fun x => if x.id = m then f x else x)) = countGifts l
    ∧ (∀ x ∈ l, ∃ y ∈ l.map (fun x => if x.id = m then f x else x),
        y.id = x.id ∧ y.type = x.type)
    ∧ (∀ y ∈ l.map (fun x => if x.id = m then f x else x),
        ∃ x ∈ l, y.id = x.id ∧ y.type = x.type) := by
  have hg : ∀ x : Entity, ((if x.id = m then f x else x)).id = x.id
      ∧ ((if x.id = m then f x else x)).type = x.type := by
    intro x
    by_cases h : x.id = m <;> simp [h, hf x]
  refine ⟨?_, ?_, ?_, ?_⟩
  · simp only [idsOf, List.map_map]
    apply List.map_congr_left
    intro x _
    exact (hg x).1
  · rw [countGifts_eq_countP, countGifts_eq_countP, List.countP_map]
    apply List.countP_congr
    intro x _
    simp only [Function.comp_apply, (hg x).2]
  · intro x hx
    exact ⟨_, List.mem_map_of_mem _ hx, (hg x).1, (hg x).2⟩
  · intro y hy
    obtain ⟨x, hx, rfl⟩ := List.mem_map.mp hy
    exact ⟨x, hx, (hg x).1, (hg x).2⟩

/-- `handlePlayerHit` keeps the entity population's ids and types. -/
lemma handlePlayerHit_entity_facts (s : GameState) :
    idsOf (handlePlayerHit s).entities = idsOf s.entities
    ∧ countGifts (handlePlayerHit s).entities = countGifts s.entities
    ∧ (∀ x ∈ s.entities, ∃ y ∈ (handlePlayerHit s).entities, y.id = x.id ∧ y.type = x.type)
    ∧ (∀ y ∈ (handlePlayerHit s).entities, ∃ x ∈ s.entities, y.id = x.id ∧ y.type = x.type) := by
  simp only [handlePlayerHit]
  split
  · exact ⟨rfl, rfl, fun x hx => ⟨x, hx, rfl, rfl⟩, fun y hy => ⟨y, hy, rfl, rfl⟩⟩
  · exact map_replace_facts s.entities s.playerId _ (fun e => ⟨rfl, rfl⟩)

lemma clampX_idtype (e : Entity) :
    (clampX e).id = e.id ∧ (clampX e).type = e.type := by
  simp only [clampX]
  split <;> split <;> simp_all

lemma constrainEntity_idtype (e : Entity) :
    (constrainEntity e).id = e.id ∧ (constrainEntity e).type = e.type := by
  simp only [constrainEntity]
  split <;> split <;> split <;> simp_all

lemma moveEntity_idtype (e : Entity) (dt : ℚ) (solids : List Rect) :
    (moveEntity e dt solids).id = e.id ∧ (moveEntity e dt solids).type = e.type := by
  have h := moveEntity_meta e dt solids
  simp only [metaOf, Prod.mk.injEq] at h
  exact ⟨h.1, h.2.1⟩

lemma reindeerAnim_idtype (dt : ℚ) (e : Entity) :
    (reindeerAnim dt e).id = e.id ∧ (reindeerAnim dt e).type = e.type := by
  simp only [reindeerAnim]
  split
  · split <;> exact ⟨rfl, rfl⟩
  · exact ⟨rfl, rfl⟩

lemma wallReversal_idtype (e : Entity) :
    (wallReversal e).id = e.id ∧ (wallReversal e).type = e.type := by
  simp only [wallReversal]
  split <;> exact ⟨rfl, rfl⟩

lemma enemyPipeline_idtype (dt : ℚ) (solids : List Rect) (E : Entity) :
    (wallReversal (reindeerAnim dt (constrainEntity (moveEntity E dt solids)))).id = E.id
    ∧ (wallReversal (reindeerAnim dt (constrainEntity (moveEntity E dt solids)))).type
        = E.type := by
  obtain ⟨h1, h2⟩ := wallReversal_idtype (reindeerAnim dt (constrainEntity (moveEntity E dt solids)))
  obtain ⟨h3, h4⟩ := reindeerAnim_idtype dt (constrainEntity (moveEntity E dt solids))
  obtain ⟨h5, h6⟩ := constrainEntity_idtype (moveEntity E dt solids)
  obtain ⟨h7, h8⟩ := moveEntity_idtype E dt solids
  exact ⟨by rw [h1, h3, h5, h7], by rw [h2, h4, h6, h8]⟩

lemma updateEnemyMotion_idtype (pRect : Rect) (dt : ℚ) (solids : List Rect) (e : Entity) :
    (updateEnemyMotion pRect dt solids e).id = e.id
    ∧ (updateEnemyMotion pRect dt solids e).type = e.type := by
  simp only [updateEnemyMotion]
  split
  · exact enemyPipeline_idtype dt solids _
  · exact enemyPipeline_idtype dt solids _

lemma playerControlE_idtype (ladders : List Rect) (inp : Input) (dt : ℚ) (p : Entity) :
    (playerControlE ladders inp dt p).id = p.id
    ∧ (playerControlE ladders inp dt p).type = p.type := by
  simp only [playerControlE]
  cases checkOverlap p.rect ladders <;> (repeat' split) <;> exact ⟨rfl, rfl⟩

lemma updatePlayerAnim_idtype (dt : ℚ) (p : Entity) :
    (updatePlayerAnim dt p).id = p.id ∧ (updatePlayerAnim dt p).type = p.type := by
  simp only [updatePlayerAnim]
  split
  · split
    · split <;> exact ⟨rfl, rfl⟩
    · exact ⟨rfl, rfl⟩
  · split
    · exact ⟨rfl, rfl⟩
    · split
      · split <;> exact ⟨rfl, rfl⟩
      · exact ⟨rfl, rfl⟩

/-- One entity-loop iteration conserves `score + 100·giftCount`, keeps the
ids duplicate-free, keeps every entity whose id differs from the visited
one and every non-gift, and only ever keeps id/type-matched descendants. -/
lemma processEntity_conserve (dt : ℚ) (s : GameState) (e : Entity)
    (hN : (idsOf s.entities).Nodup)
    (hPres : e.type = EntityType.GIFT →
      ∃ x ∈ s.entities, x.id = e.id ∧ x.type = EntityType.GIFT)
    (hTe : ∀ x ∈ s.entities, x.id = e.id → x.type = e.type) :
    ((processEntity dt s e).score + 100 * (countGifts (processEntity dt s e).entities : ℤ)
      = s.score + 100 * (countGifts s.entities : ℤ))
    ∧ (idsOf (processEntity dt s e).entities).Nodup
    ∧ (∀ x ∈ s.entities, x.id ≠ e.id →
        ∃ y ∈ (processEntity dt s e).entities, y.id = x.id ∧ y.type = x.type)
    ∧ (∀ x ∈ s.entities, x.type ≠ EntityType.GIFT →
        ∃ y ∈ (processEntity dt s e).entities, y.id = x.id ∧ y.type = x.type)
    ∧ (∀ y ∈ (processEntity dt s e).entities,
        ∃ x ∈ s.entities, y.id = x.id ∧ y.type = x.type) := by
  simp only [processEntity]
  split
  · exact ⟨rfl, hN, fun x hx _ => ⟨x, hx, rfl, rfl⟩, fun x hx _ => ⟨x, hx, rfl, rfl⟩,
      fun y hy => ⟨y, hy, rfl, rfl⟩⟩
  · split
    · next hgift =>
        split
        · next =>
            dsimp only
            obtain ⟨x0, hx0, hx0id, hx0g⟩ := hPres hgift
            have hrem := countGifts_remove s.entities e.id hN x0 hx0 hx0id hx0g
            have hkeep : ∀ x ∈ s.entities, x.id ≠ e.id →
                x ∈ s.entities.filter (fun z => !(z.id == e.id)) := by
              intro x hx hne
              exact List.mem_filter.mpr ⟨hx, by simp [hne]⟩
            refine ⟨?_, ?_, ?_, ?_, ?_⟩
            · omega
            · exact List.Nodup.sublist (List.Sublist.map Entity.id
                (List.filter_sublist s.entities)) hN
            · intro x hx hne
              exact ⟨x, hkeep x hx hne, rfl, rfl⟩
            · intro x hx hng
              have hne : x.id ≠ e.id := by
                intro hc
                exact hng (by rw [hTe x hx hc]; exact hgift)
              exact ⟨x, hkeep x hx hne, rfl, rfl⟩
            · intro y hy
              exact ⟨y, List.mem_of_mem_filter hy, rfl, rfl⟩
        · exact ⟨rfl, hN, fun x hx _ => ⟨x, hx, rfl, rfl⟩, fun x hx _ => ⟨x, hx, rfl, rfl⟩,
            fun y hy => ⟨y, hy, rfl, rfl⟩⟩
    · split
      · next =>
          obtain ⟨heid, hetype⟩ := updateEnemyMotion_idtype (getPlayer s).rect dt s.solids e
          have hmf := map_setconst_facts s.entities e.id
            (updateEnemyMotion (getPlayer s).rect dt s.solids e) heid
            (fun x hx hxe => by rw [hetype]; exact hTe x hx hxe)
          split
          · next =>
              have hhf := handlePlayerHit_entity_facts
                { s with entities := s.entities.map (fun x =>
                    if x.id = e.id then updateEnemyMotion (getPlayer s).rect dt s.solids e
                    else x) }
              refine ⟨?_, ?_, ?_, ?_, ?_⟩
              · rw [handlePlayerHit_score]
                show s.score + 100 * (countGifts (handlePlayerHit _).entities : ℤ)
                    = _
                rw [hhf.2.1]
                show s.score + 100 * (countGifts (s.entities.map _) : ℤ) = _
                rw [hmf.2.1]
              · show (idsOf (handlePlayerHit _).entities).Nodup
                rw [hhf.1]
                show (idsOf (s.entities.map _)).Nodup
                rw [hmf.1]
                exact hN
              · intro x hx _
                obtain ⟨y, hy, hyid, hytype⟩ := hmf.2.2.1 x hx
                obtain ⟨z, hz, hzid, hztype⟩ := hhf.2.2.1 y hy
                exact ⟨z, hz, hzid.trans hyid, hztype.trans hytype⟩
              · intro x hx _
                obtain ⟨y, hy, hyid, hytype⟩ := hmf.2.2.1 x hx
                obtain ⟨z, hz, hzid, hztype⟩ := hhf.2.2.1 y hy
                exact ⟨z, hz, hzid.trans hyid, hztype.trans hytype⟩
              · intro y hy
                obtain ⟨z, hz, hzid, hztype⟩ := hhf.2.2.2 y hy
                obtain ⟨x, hx, hxid, hxtype⟩ := hmf.2.2.2 z hz
                exact ⟨x, hx, hzid.trans hxid, hztype.trans hxtype⟩
          · refine ⟨?_, ?_, ?_, ?_, ?_⟩
            · show s.score + 100 * (countGifts (s.entities.map _) : ℤ) = _
              rw [hmf.2.1]
            · show (idsOf (s.entities.map _)).Nodup
              rw [hmf.1]
              exact hN
            · intro x hx _
              exact hmf.2.2.1 x hx
            · intro x hx _
              exact hmf.2.2.1 x hx
            · exact hmf.2.2.2
      · exact ⟨rfl, hN, fun x hx _ => ⟨x, hx, rfl, rfl⟩, fun x hx _ => ⟨x, hx, rfl, rfl⟩,
          fun y hy => ⟨y, hy, rfl, rfl⟩⟩

/-- Over the whole entity loop, `score + 100·giftCount` is conserved and
every non-gift entity survives with its id and type. -/
lemma entityLoop_conserve (dt : ℚ) : ∀ (rest : List Entity) (s : GameState),
    (idsOf s.entities).Nodup →
    (idsOf rest).Nodup →
    (∀ e ∈ rest, e.type = EntityType.GIFT →
      ∃ x ∈ s.entities, x.id = e.id ∧ x.type = EntityType.GIFT) →
    (∀ e ∈ rest, ∀ x ∈ s.entities, x.id = e.id → x.type = e.type) →
    ((rest.foldl (processEntity dt) s).score
        + 100 * (countGifts (rest.foldl (processEntity dt) s).entities : ℤ)
      = s.score + 100 * (countGifts s.entities : ℤ))
    ∧ (∀ x ∈ s.entities, x.type ≠ EntityType.GIFT →
        ∃ y ∈ (rest.foldl (processEntity dt) s).entities, y.id = x.id ∧ y.type = x.type) := by
  intro rest
  induction rest with
  | nil =>
      intro s _ _ _ _
      exact ⟨rfl, fun x hx _ => ⟨x, hx, rfl, rfl⟩⟩
  | cons e rest ih =>
      intro s hN hR hP hT
      simp only [idsOf, List.map_cons, List.nodup_cons] at hR
      have hcard : ∀ g ∈ rest, g.id ≠ e.id := by
        intro g hg hc
        exact hR.1 (by rw [← hc]; exact List.mem_map_of_mem Entity.id hg)
      obtain ⟨hc1, hc2, hc3, hc4, hc5⟩ := processEntity_conserve dt s e hN
        (hP e (List.mem_cons_self e rest))
        (hT e (List.mem_cons_self e rest))
      have hP' : ∀ g ∈ rest, g.type = EntityType.GIFT →
          ∃ x ∈ (processEntity dt s e).entities, x.id = g.id ∧ x.type = EntityType.GIFT := by
        intro g hg hgg
        obtain ⟨x, hx, hxid, hxg⟩ := hP g (List.mem_cons_of_mem e hg) hgg
        obtain ⟨y, hy, hyid, hytype⟩ := hc3 x hx (by rw [hxid]; exact hcard g hg)
        exact ⟨y, hy, hyid.trans hxid, hytype.trans hxg⟩
      have hT' : ∀ g ∈ rest, ∀ x ∈ (processEntity dt s e).entities,
          x.id = g.id → x.type = g.type := by
        intro g hg y hy hyid
        obtain ⟨x, hx, hxid, hxtype⟩ := hc5 y hy
        exact hxtype.trans (hT g (List.mem_cons_of_mem e hg) x hx (hxid.symm.trans hyid))
      obtain ⟨ihc, ihs⟩ := ih (processEntity dt s e) hc2 hR.2 hP' hT'
      simp only [List.foldl_cons]
      constructor
      · omega
      · intro x hx hng
        obtain ⟨y, hy, hyid, hytype⟩ := hc4 x hx hng
        obtain ⟨z, hz, hzid, hztype⟩ := ihs y hy (by rw [hytype]; exact hng)
        exact ⟨z, hz, hzid.trans hyid, hztype.trans hytype⟩

/-- `setPlayer` with an id/type-preserving function keeps the id list, the
gift count, and id/type-matched membership. -/
lemma setPlayer_facts (s : GameState) (f : Entity → Entity)
    (hf : ∀ e, (f e).id = e.id ∧ (f e).type = e.type) :
    idsOf (setPlayer s f).entities = idsOf s.entities
    ∧ countGifts (setPlayer s f).entities = countGifts s.entities
    ∧ (∀ x ∈ s.entities, ∃ y ∈ (setPlayer s f).entities, y.id = x.id ∧ y.type = x.type)
    ∧ (∀ y ∈ (setPlayer s f).entities, ∃ x ∈ s.entities, y.id = x.id ∧ y.type = x.type) :=
  map_replace_facts s.entities s.playerId f hf

/-- The player phase keeps the id list, the gift count, and id/type-matched
membership. -/
lemma prePhase_entity_facts (inp : Input) (dt : ℚ) (s : GameState) :
    idsOf (prePhase inp dt s).entities = idsOf s.entities
    ∧ countGifts (prePhase inp dt s).entities = countGifts s.entities
    ∧ (∀ x ∈ s.entities, ∃ y ∈ (prePhase inp dt s).entities, y.id = x.id ∧ y.type = x.type) := by
  have g1 := setPlayer_facts s (playerControlE s.ladders inp dt)
    (playerControlE_idtype s.ladders inp dt)
  have g2 := setPlayer_facts (setPlayer s (playerControlE s.ladders inp dt))
    (fun p => moveEntity p dt (setPlayer s (playerControlE s.ladders inp dt)).solids)
    (fun p => moveEntity_idtype p dt _)
  have g3 := setPlayer_facts
    (setPlayer (setPlayer s (playerControlE s.ladders inp dt))
      (fun p => moveEntity p dt (setPlayer s (playerControlE s.ladders inp dt)).solids))
    (updatePlayerAnim dt) (updatePlayerAnim_idtype dt)
  have g4 := setPlayer_facts
    (setPlayer (setPlayer (setPlayer s (playerControlE s.ladders inp dt))
      (fun p => moveEntity p dt (setPlayer s (playerControlE s.ladders inp dt)).solids))
      (updatePlayerAnim dt)) clampX clampX_idtype
  simp only [prePhase, constrainPlayer]
  split
  · next =>
      have gh := handlePlayerHit_entity_facts
        (setPlayer (setPlayer (setPlayer (setPlayer s (playerControlE s.ladders inp dt))
          (fun p => moveEntity p dt (setPlayer s (playerControlE s.ladders inp dt)).solids))
          (updatePlayerAnim dt)) clampX)
      refine ⟨?_, ?_, ?_⟩
      · rw [gh.1, g4.1, g3.1, g2.1, g1.1]
      · rw [gh.2.1, g4.2.1, g3.2.1, g2.2.1, g1.2.1]
      · intro x hx
        obtain ⟨y1, hy1, hi1, ht1⟩ := g1.2.2.1 x hx
        obtain ⟨y2, hy2, hi2, ht2⟩ := g2.2.2.1 y1 hy1
        obtain ⟨y3, hy3, hi3, ht3⟩ := g3.2.2.1 y2 hy2
        obtain ⟨y4, hy4, hi4, ht4⟩ := g4.2.2.1 y3 hy3
        obtain ⟨y5, hy5, hi5, ht5⟩ := gh.2.2.1 y4 hy4
        exact ⟨y5, hy5, by rw [hi5, hi4, hi3, hi2, hi1], by rw [ht5, ht4, ht3, ht2, ht1]⟩
  · refine ⟨?_, ?_, ?_⟩
    · rw [g4.1, g3.1, g2.1, g1.1]
    · rw [g4.2.1, g3.2.1, g2.2.1, g1.2.1]
    · intro x hx
      obtain ⟨y1, hy1, hi1, ht1⟩ := g1.2.2.1 x hx
      obtain ⟨y2, hy2, hi2, ht2⟩ := g2.2.2.1 y1 hy1
      obtain ⟨y3, hy3, hi3, ht3⟩ := g3.2.2.1 y2 hy2
      obtain ⟨y4, hy4, hi4, ht4⟩ := g4.2.2.1 y3 hy3
      exact ⟨y4, hy4, by rw [hi4, hi3, hi2, hi1], by rw [ht4, ht3, ht2, ht1]⟩

lemma ne_nil_of_countGifts_pos (l : List Entity) (h : 0 < countGifts l) : l ≠ [] := by
  intro hc
  rw [hc] at h
  simp [countGifts] at h

/-- C2 — a frame that picks up the last remaining gift scores exactly 1100
(100 pickup + 1000 clear, both reported), and regenerates a fresh non-empty
level (4 to 6 new gifts); the clear branch fires only when no gift is left
while some entity still exists. -/
theorem claim2_last_gift_frame (rng : ℕ → ℚ) (shuffle : List FloorLevel → List FloorLevel)
    (inp : Input) (dt : ℚ) (s : GameState)
    (hr : ∀ n, 0 ≤ rng n ∧ rng n < 1)
    (hsh : List.Perm (shuffle reachableFloorLevels) reachableFloorLevels)
    (hN : (idsOf s.entities).Nodup)
    (hpl : ∃ x ∈ s.entities, x.type = EntityType.PLAYER)
    (h1 : countGifts s.entities = 1)
    (hpick : countGifts (entityPhase dt (prePhase inp dt s)).entities = 0) :
    (update rng shuffle inp dt s).score = s.score + 1100
    ∧ (∃ tl, (update rng shuffle inp dt s).events = s.events ++ tl
        ∧ Event.score (s.score + 100) ∈ tl ∧ Event.score (s.score + 1100) ∈ tl)
    ∧ 4 ≤ countGifts (update rng shuffle inp dt s).entities
    ∧ countGifts (update rng shuffle inp dt s).entities ≤ 6
    ∧ (update rng shuffle inp dt s).entities ≠ []
    ∧ (∀ s2 : GameState, ¬ (countGifts s2.entities = 0 ∧ 0 < s2.entities.length) →
        clearPhase rng shuffle s2 = s2) := by
  obtain ⟨hpre_ids, hpre_cnt, hpre_surv⟩ := prePhase_entity_facts inp dt s
  obtain ⟨hpre_sc, u1, hu1⟩ := prePhase_score inp dt s
  have hN1 : (idsOf (prePhase inp dt s).entities).Nodup := by
    rw [hpre_ids]
    exact hN
  have hcnt1 : countGifts (prePhase inp dt s).entities = 1 := by
    rw [hpre_cnt]
    exact h1
  obtain ⟨hcons, hsurv⟩ := entityLoop_conserve dt (prePhase inp dt s).entities
    (prePhase inp dt s) hN1 hN1 (fun e he hg => ⟨e, he, rfl, hg⟩)
    (fun e he x hx hid => by
      rw [mem_unique_of_nodup_ids (prePhase inp dt s).entities hN1 x hx e he hid])
  have hfold : (prePhase inp dt s).entities.foldl (processEntity dt) (prePhase inp dt s)
      = entityPhase dt (prePhase inp dt s) := rfl
  rw [hfold] at hcons hsurv
  obtain ⟨_, _, _, u2, hu2, hmem2⟩ := entityLoop_score dt (prePhase inp dt s).entities
    (prePhase inp dt s)
  rw [hfold] at hu2 hmem2
  have hs2score : (entityPhase dt (prePhase inp dt s)).score = s.score + 100 := by
    rw [hpick, hcnt1, hpre_sc] at hcons
    omega
  obtain ⟨x, hx, hxp⟩ := hpl
  obtain ⟨y, hy, _, hyt⟩ := hpre_surv x hx
  obtain ⟨z, hz, _, _⟩ := hsurv y hy (by rw [hyt, hxp]; decide)
  have hlen2 : 0 < (entityPhase dt (prePhase inp dt s)).entities.length :=
    List.length_pos.mpr (List.ne_nil_of_mem hz)
  have hguard : countGifts (entityPhase dt (prePhase inp dt s)).entities = 0
      ∧ 0 < (entityPhase dt (prePhase inp dt s)).entities.length := ⟨hpick, hlen2⟩
  have hupd : update rng shuffle inp dt s
      = initLevelState rng shuffle
          { entityPhase dt (prePhase inp dt s) with
            score := (entityPhase dt (prePhase inp dt s)).score + 1000,
            events := (entityPhase dt (prePhase inp dt s)).events
              ++ [Event.score ((entityPhase dt (prePhase inp dt s)).score + 1000)] } := by
    show clearPhase rng shuffle (entityPhase dt (prePhase inp dt s)) = _
    simp only [clearPhase, if_pos hguard]
  obtain ⟨_, hb2, hb3⟩ := initLevel_gift_bounds rng shuffle
    (entityPhase dt (prePhase inp dt s)).idCounter
    (entityPhase dt (prePhase inp dt s)).rngIdx hr hsh
  have hsc : (update rng shuffle inp dt s).score = s.score + 1100 := by
    rw [hupd]
    show (entityPhase dt (prePhase inp dt s)).score + 1000 = s.score + 1100
    rw [hs2score]
    ring
  have hct : countGifts (update rng shuffle inp dt s).entities
      = countGifts (initLevel rng shuffle (entityPhase dt (prePhase inp dt s)).idCounter
          (entityPhase dt (prePhase inp dt s)).rngIdx).entities := by
    rw [hupd]
    dsimp only [initLevelState]
  have harith : (entityPhase dt (prePhase inp dt s)).score + 1000 = s.score + 1100 := by
    rw [hs2score]
    ring
  have hev : (update rng shuffle inp dt s).events
      = s.events ++ (u1 ++ (u2 ++ [Event.score (s.score + 1100)])) := by
    rw [hupd]
    show (entityPhase dt (prePhase inp dt s)).events
        ++ [Event.score ((entityPhase dt (prePhase inp dt s)).score + 1000)] = _
    rw [harith, hu2, hu1]
    simp [List.append_assoc]
  have hm100 : Event.score (s.score + 100) ∈ u2 := by
    have hne : (entityPhase dt (prePhase inp dt s)).score ≠ (prePhase inp dt s).score := by
      rw [hs2score, hpre_sc]
      omega
    have hmm := hmem2 hne
    rw [hs2score] at hmm
    exact hmm
  refine ⟨hsc, ⟨u1 ++ (u2 ++ [Event.score (s.score + 1100)]), hev,
      List.mem_append_right u1 (List.mem_append_left _ hm100),
      List.mem_append_right u1 (List.mem_append_right u2 (by simp))⟩,
    by rw [hct]; exact hb2, by rw [hct]; exact hb3, ?_, ?_⟩
  · apply ne_nil_of_countGifts_pos
    rw [hct]
    omega
  · intro s2 hg
    simp only [clearPhase, if_neg hg]

/-- Concrete run of C2: a two-entity state (player overlapping the single
gift) with `dt = 0` scores exactly 1100 in the frame and regenerates a
level with 4 gifts. -/
theorem claim2_witness :
    (let pW : Entity :=
      { id := 1, type := .PLAYER, rect := ⟨0, 20, 12, 16⟩, velocity := ⟨0, 0⟩,
        grounded := false, onLadder := false, direction := 1,
        animFrame := 0, animTimer := 0, tex := "" }
     let gW : Entity :=
      { id := 2, type := .GIFT, rect := ⟨4, 20, 16, 16⟩, velocity := ⟨0, 0⟩,
        grounded := false, onLadder := false, direction := 1,
        animFrame := 0, animTimer := 0, tex := "gift_red" }
     let sW : GameState :=
      { entities := [pW, gW], solids := [], ladders := [], playerId := 1,
        idCounter := 2, rngIdx := 0, score := 0, lives := 3, isRunning := true, events := [] }
     (update (fun _ => 0) id ⟨0, 0, false⟩ 0 sW).score = 1100
       ∧ 4 ≤ countGifts (update (fun _ => 0) id ⟨0, 0, false⟩ 0 sW).entities
       ∧ (update (fun _ => 0) id ⟨0, 0, false⟩ 0 sW).entities ≠ []) := by
  intro pW gW sW
  have h := claim2_last_gift_frame (fun _ => 0) id ⟨0, 0, false⟩ 0 sW
    (fun n => ⟨le_refl 0, by norm_num⟩) (List.Perm.refl _)
    (by simp [idsOf, sW, pW, gW])
    ⟨pW, by simp [sW], rfl⟩
    (by with_unfolding_all decide)
    (by with_unfolding_all decide)
  exact ⟨h.1, h.2.2.1, h.2.2.2.2.1⟩

end SantaScramble
